import Mathlib

/-!
Verification development for the lunify repository (Lua 5.0/5.1 byte-code
converter, Rust). The Rust sources are shallowly embedded below: machine
integers (u64, i64, u8, usize) are modelled as Nat/Int with explicit
wrapping (% 2^64, % 2^32, % 256) at the places where the Rust code can
overflow; Rust panics (index out of bounds, integer overflow in debug mode,
division by zero, unwrap of None) are modelled as the value none of an
Option wrapper; fallible Rust functions returning Result are modelled with
Except. Loops whose termination is not structural are modelled with an
explicit fuel argument that is large enough for every terminating Rust
execution of the loop (each such place documents the bound).
-/

set_option maxRecDepth 10000

namespace Lunify

/-- Error enum, from src/error.rs. Different snapshots of the code base name
the operand-overflow error differently (ValueTooTooBigForOperant in
src/error.rs, ValueTooBigForOperand in
src/function/instruction/operand/layout.rs); both constructors are kept. -/
inductive LunifyError where
  | InvalidInstructionLayout
  | IncorrectSignature
  | UnsupportedVersion (version : Nat)
  | InvaildEndianness (endianness : Nat)
  | UnsupportedInstructionFormat (format : List Nat)
  | UnsupportedSizeTWidth (width : Nat)
  | UnsupportedIntegerWidth (width : Nat)
  | UnsupportedInstructionWidth (width : Nat)
  | UnsupportedNumberWidth (width : Nat)
  | InvalidOpcode (opcode : Nat)
  | InvalidConstantType (tag : Nat)
  | FloatPrecisionLoss
  | IntegerOverflow
  | InputTooShort
  | InputTooLong
  | StackTooLarge (size : Nat)
  | TooManyConstants (index : Nat)
  | ValueTooTooBigForOperant
  | ValueTooBigForOperand
  | UnexpectedForwardJump
  deriving DecidableEq

/-- Modulus of the Rust u64 type. -/
def u64Size : Nat := 2 ^ 64

/-- Wrapping u64 addition (release-mode Rust semantics). -/
def wadd (x y : Nat) : Nat := (x + y) % u64Size

/-- Wrapping u64 subtraction (release-mode Rust semantics). -/
def wsub (x y : Nat) : Nat := (x + u64Size - y % u64Size) % u64Size

/-- Bit-field descriptor, from src/function/instruction/operand/layout.rs
(struct OperandLayout). -/
structure OperandLayout where
  size : Nat
  position : Nat
  bit_mask : Nat
  deriving DecidableEq

/-- OperandLayout::new: bit_mask = !0 >> (64 - size). -/
def OperandLayout.new (size position : Nat) : OperandLayout :=
  { size := size, position := position, bit_mask := (u64Size - 1) >>> (64 - size) }

/-- OperandLayout::get: (value >> position) & bit_mask. Shift amounts are
masked modulo 64 (release-mode Rust shift semantics); for every layout the
code actually constructs the positions are below 64 and the mask is a no-op. -/
def OperandLayout.get (self : OperandLayout) (value : Nat) : Nat :=
  (value >>> (self.position % 64)) &&& self.bit_mask

/-- OperandLayout::put: checks value <= (1 << size) - 1, then returns
(value & bit_mask) << position, truncated to 64 bits. -/
def OperandLayout.put (self : OperandLayout) (value : Nat) : Except LunifyError Nat :=
  let maximum_value := (1 <<< (self.size % 64)) - 1
  if value > maximum_value then
    .error .ValueTooBigForOperand
  else
    .ok (((value &&& self.bit_mask) <<< (self.position % 64)) % u64Size)

/-- Operand kind with its size, from src/function/instruction/operand/layout.rs
(enum OperandType). -/
inductive OperandType where
  | Opcode (size : Nat)
  | A (size : Nat)
  | B (size : Nat)
  | C (size : Nat)
  deriving DecidableEq

/-- Instruction memory layout, from src/function/instruction/operand/layout.rs
(struct InstructionLayout). -/
structure InstructionLayout where
  opcode : OperandLayout
  a : OperandLayout
  b : OperandLayout
  c : OperandLayout
  bx : OperandLayout
  signed_offset : Int
  deriving DecidableEq

/-- Accumulator state of the specification loop in
InstructionLayout::from_specification. -/
structure SpecState where
  opcode : Option OperandLayout
  a : Option OperandLayout
  b : Option OperandLayout
  c : Option OperandLayout
  offset : Nat
  deriving DecidableEq

/-- Loop body of InstructionLayout::from_specification: each operand type is
range-checked, rejected if repeated, and placed at the running bit offset. -/
def fromSpecGo : List OperandType → SpecState → Except LunifyError SpecState
  | [], state => .ok state
  | operand :: rest, state =>
    match operand with
    | .Opcode size =>
      if ¬(6 ≤ size ∧ size < 32) ∨ state.opcode.isSome then .error .InvalidInstructionLayout
      else fromSpecGo rest { state with opcode := some (OperandLayout.new size state.offset),
                                        offset := state.offset + size }
    | .A size =>
      if ¬(7 ≤ size ∧ size < 32) ∨ state.a.isSome then .error .InvalidInstructionLayout
      else fromSpecGo rest { state with a := some (OperandLayout.new size state.offset),
                                        offset := state.offset + size }
    | .B size =>
      if ¬(8 ≤ size ∧ size < 32) ∨ state.b.isSome then .error .InvalidInstructionLayout
      else fromSpecGo rest { state with b := some (OperandLayout.new size state.offset),
                                        offset := state.offset + size }
    | .C size =>
      if ¬(8 ≤ size ∧ size < 32) ∨ state.c.isSome then .error .InvalidInstructionLayout
      else fromSpecGo rest { state with c := some (OperandLayout.new size state.offset),
                                        offset := state.offset + size }

/-- InstructionLayout::from_specification, from
src/function/instruction/operand/layout.rs. The outer Option models the
final .unwrap() calls: none stands for an unwrap panic (unreachable for
4-element specifications, where either every kind is set or the loop already
returned an error for a duplicate). -/
def InstructionLayout.from_specification (specification : List OperandType) :
    Option (Except LunifyError InstructionLayout) :=
  match fromSpecGo specification ⟨none, none, none, none, 0⟩ with
  | .error e => some (.error e)
  | .ok state =>
    match state.opcode, state.a, state.b, state.c with
    | some opcode, some a, some b, some c =>
      if c.position + c.size ≠ b.position ∧ b.position + b.size ≠ c.position then
        some (.error .InvalidInstructionLayout)
      else
        let bx_size := b.size + c.size
        let bx_position := Nat.min b.position c.position
        some (.ok { opcode := opcode, a := a, b := b, c := c,
                    bx := OperandLayout.new bx_size bx_position,
                    signed_offset := (((u64Size - 1) >>> (64 - bx_size + 1) : Nat) : Int) })
    | _, _, _, _ => none

/-- Claim C2's per-field property: get never exceeds the size bound, and
put of a got value succeeds and reproduces the word restricted to the
field's packed mask (bit_mask shifted to the field's position). -/
def PutGetOk (field : OperandLayout) (w : Nat) : Prop :=
  field.get w ≤ 2 ^ field.size - 1 ∧
  field.put (field.get w) = .ok (w &&& ((field.bit_mask <<< (field.position % 64)) % u64Size))

/-- Shifting an all-ones u64 right yields a low mask of the remaining width. -/
theorem allOnes_shiftRight (s : Nat) (hs : s ≤ 64) :
    (u64Size - 1) >>> (64 - s) = 2 ^ s - 1 := by
  rw [Nat.shiftRight_eq_div_pow]
  have hpow : u64Size = 2 ^ (64 - s) * 2 ^ s := by
    unfold u64Size
    rw [← pow_add]
    congr 1
    omega
  have hk : (1 : Nat) ≤ 2 ^ (64 - s) := Nat.one_le_two_pow
  have hs1 : (1 : Nat) ≤ 2 ^ s := Nat.one_le_two_pow
  have hsplit : u64Size - 1 = 2 ^ (64 - s) * (2 ^ s - 1) + (2 ^ (64 - s) - 1) := by
    rw [hpow, Nat.mul_sub, Nat.mul_one]
    have hle : 2 ^ (64 - s) ≤ 2 ^ (64 - s) * 2 ^ s :=
      Nat.le_mul_of_pos_right _ (by omega)
    omega
  rw [hsplit, Nat.mul_add_div (by omega), Nat.div_eq_of_lt (by omega)]
  omega

/-- Core bit-level identity behind the round trip: masking after a right
shift and shifting back left equals restricting to the shifted mask. -/
theorem shift_mask_roundtrip (w m p : Nat) :
    (((w >>> p) &&& m) <<< p) % u64Size = w &&& ((m <<< p) % u64Size) := by
  apply Nat.eq_of_testBit_eq
  intro i
  have hmod : u64Size = 2 ^ 64 := rfl
  rw [hmod]
  simp only [Nat.testBit_mod_two_pow, Nat.testBit_shiftLeft, Nat.testBit_land,
    Nat.testBit_shiftRight]
  by_cases hpi : p ≤ i
  · have hip : p + (i - p) = i := by omega
    rw [hip]
    by_cases hi : i < 64 <;>
      simp [ge_iff_le, hpi, hi, Bool.and_comm, Bool.and_left_comm, Bool.and_assoc]
  · by_cases hi : i < 64 <;> simp [ge_iff_le, hpi, hi]

/-- Round trip for any field built by OperandLayout::new with a size between
1 and 63 bits; every layout accepted by from_specification satisfies this. -/
theorem new_putGetOk (s p w : Nat) (hs1 : 1 ≤ s) (hs2 : s ≤ 63) :
    PutGetOk (OperandLayout.new s p) w := by
  have hmask : (OperandLayout.new s p).bit_mask = 2 ^ s - 1 :=
    allOnes_shiftRight s (by omega)
  have hget_le : (OperandLayout.new s p).get w ≤ 2 ^ s - 1 := by
    unfold OperandLayout.get
    rw [hmask]
    exact Nat.and_le_right
  constructor
  · exact hget_le
  · unfold OperandLayout.put
    have hsize : (OperandLayout.new s p).size = s := rfl
    have hmax : (1 <<< ((OperandLayout.new s p).size % 64)) - 1 = 2 ^ s - 1 := by
      rw [hsize, Nat.mod_eq_of_lt (by omega), Nat.shiftLeft_eq, one_mul]
    rw [hmax]
    simp only [if_neg (by omega : ¬ (OperandLayout.new s p).get w > 2 ^ s - 1)]
    congr 1
    unfold OperandLayout.get
    have hchain :
        ((w >>> ((OperandLayout.new s p).position % 64)) &&& (OperandLayout.new s p).bit_mask)
          &&& (OperandLayout.new s p).bit_mask
        = (w >>> ((OperandLayout.new s p).position % 64)) &&& (OperandLayout.new s p).bit_mask := by
      rw [Nat.land_assoc]
      congr 1
      apply Nat.eq_of_testBit_eq
      intro i
      simp [Nat.testBit_land, Bool.and_self]
    rw [hchain]
    exact shift_mask_roundtrip w _ _

/-- Bounds invariant carried through the from_specification loop: every
field already assigned was built by OperandLayout::new with an in-range size. -/
def GoodField (field : Option OperandLayout) (lo : Nat) : Prop :=
  ∀ l, field = some l → ∃ s p, l = OperandLayout.new s p ∧ lo ≤ s ∧ s < 32

theorem fromSpecGo_good (spec : List OperandType) :
    ∀ state state', fromSpecGo spec state = .ok state' →
    GoodField state.opcode 6 → GoodField state.a 7 →
    GoodField state.b 8 → GoodField state.c 8 →
    GoodField state'.opcode 6 ∧ GoodField state'.a 7 ∧
    GoodField state'.b 8 ∧ GoodField state'.c 8 := by
  induction spec with
  | nil =>
    intro state state' h h1 h2 h3 h4
    simp only [fromSpecGo] at h
    cases h
    exact ⟨h1, h2, h3, h4⟩
  | cons operand rest ih =>
    intro state state' h h1 h2 h3 h4
    cases operand with
    | Opcode size =>
      simp only [fromSpecGo] at h
      split at h
      · cases h
      · refine ih _ _ h ?_ h2 h3 h4
        intro l hl
        simp only [Option.some.injEq] at hl
        exact ⟨size, state.offset, hl.symm, by omega, by omega⟩
    | A size =>
      simp only [fromSpecGo] at h
      split at h
      · cases h
      · refine ih _ _ h h1 ?_ h3 h4
        intro l hl
        simp only [Option.some.injEq] at hl
        exact ⟨size, state.offset, hl.symm, by omega, by omega⟩
    | B size =>
      simp only [fromSpecGo] at h
      split at h
      · cases h
      · refine ih _ _ h h1 h2 ?_ h4
        intro l hl
        simp only [Option.some.injEq] at hl
        exact ⟨size, state.offset, hl.symm, by omega, by omega⟩
    | C size =>
      simp only [fromSpecGo] at h
      split at h
      · cases h
      · refine ih _ _ h h1 h2 h3 ?_
        intro l hl
        simp only [Option.some.injEq] at hl
        exact ⟨size, state.offset, hl.symm, by omega, by omega⟩

/-- C2: for every instruction layout accepted by
InstructionLayout::from_specification and every 32-bit instruction word, each
of the four packed fields satisfies put(get(w)) = w restricted to the field's
packed mask, and get(w) never exceeds (1 << size) - 1, so put applied to a
value obtained by get never fails with ValueTooBigForOperand. -/
theorem operand_put_get_roundtrip (specification : List OperandType)
    (layout : InstructionLayout) (w : Nat)
    (hspec : InstructionLayout.from_specification specification = some (.ok layout))
    (hw : w < u64Size) :
    PutGetOk layout.opcode w ∧ PutGetOk layout.a w ∧
    PutGetOk layout.b w ∧ PutGetOk layout.c w := by
  unfold InstructionLayout.from_specification at hspec
  split at hspec
  · simp only [Option.some.injEq] at hspec
    cases hspec
  · rename_i state heq
    split at hspec
    · rename_i opcode a b c hop ha hb hc
      have hgood := fromSpecGo_good _ _ _ heq
        (by intro l hl; simp at hl) (by intro l hl; simp at hl)
        (by intro l hl; simp at hl) (by intro l hl; simp at hl)
      obtain ⟨g1, g2, g3, g4⟩ := hgood
      obtain ⟨s1, p1, rfl, hs1a, hs1b⟩ := g1 _ hop
      obtain ⟨s2, p2, rfl, hs2a, hs2b⟩ := g2 _ ha
      obtain ⟨s3, p3, rfl, hs3a, hs3b⟩ := g3 _ hb
      obtain ⟨s4, p4, rfl, hs4a, hs4b⟩ := g4 _ hc
      split at hspec
      · simp only [Option.some.injEq] at hspec
        cases hspec
      · simp only [Option.some.injEq, Except.ok.injEq] at hspec
        subst hspec
        refine ⟨?_, ?_, ?_, ?_⟩
        · exact new_putGetOk s1 p1 w (by omega) (by omega)
        · exact new_putGetOk s2 p2 w (by omega) (by omega)
        · exact new_putGetOk s3 p3 w (by omega) (by omega)
        · exact new_putGetOk s4 p4 w (by omega) (by omega)
    · cases hspec

/-- Default Lua 5.1 instruction layout, the value of
from_specification([Opcode(6), A(8), C(9), B(9)]) used by lua51::Settings. -/
def defaultLayout51 : InstructionLayout :=
  { opcode := { size := 6, position := 0, bit_mask := 63 }
    a := { size := 8, position := 6, bit_mask := 255 }
    c := { size := 9, position := 14, bit_mask := 511 }
    b := { size := 9, position := 23, bit_mask := 511 }
    bx := { size := 18, position := 14, bit_mask := 262143 }
    signed_offset := 131071 }

/-- Default Lua 5.0 instruction layout, the value of
from_specification([Opcode(6), C(9), B(9), A(8)]) used by lua50::Settings. -/
def defaultLayout50 : InstructionLayout :=
  { opcode := { size := 6, position := 0, bit_mask := 63 }
    c := { size := 9, position := 6, bit_mask := 511 }
    b := { size := 9, position := 15, bit_mask := 511 }
    a := { size := 8, position := 24, bit_mask := 255 }
    bx := { size := 18, position := 6, bit_mask := 262143 }
    signed_offset := 131071 }

/-- Sanity: the hand-written default Lua 5.1 layout is exactly what
from_specification produces for the default specification. -/
theorem defaultLayout51_from_specification :
    InstructionLayout.from_specification [.Opcode 6, .A 8, .C 9, .B 9]
      = some (.ok defaultLayout51) := by rfl

/-- Sanity: the hand-written default Lua 5.0 layout is exactly what
from_specification produces for the default specification. -/
theorem defaultLayout50_from_specification :
    InstructionLayout.from_specification [.Opcode 6, .C 9, .B 9, .A 8]
      = some (.ok defaultLayout50) := by rfl

/-- Witness for C2 at the default Lua 5.1 layout and a concrete word. -/
theorem operand_put_get_roundtrip_witness :
    PutGetOk defaultLayout51.opcode 4276545 ∧ PutGetOk defaultLayout51.a 4276545 ∧
    PutGetOk defaultLayout51.b 4276545 ∧ PutGetOk defaultLayout51.c 4276545 :=
  operand_put_get_roundtrip [.Opcode 6, .A 8, .C 9, .B 9] defaultLayout51 4276545
    defaultLayout51_from_specification (by norm_num [u64Size])

/-- Lua 5.1 compile constants, from src/function/instruction/lua51.rs
(struct Settings). The binary signature is modelled as its byte sequence. -/
structure Lua51Settings where
  stack_limit : Nat
  fields_per_flush : Nat
  binary_signature : List Nat
  layout : InstructionLayout
  deriving DecidableEq

/-- Default Lua 5.1 settings: fields_per_flush 50, stack_limit 250,
signature "\x1bLua", layout [Opcode(6), A(8), C(9), B(9)]. -/
def Lua51Settings.default : Lua51Settings :=
  { fields_per_flush := 50
    stack_limit := 250
    binary_signature := [27, 76, 117, 97]
    layout := defaultLayout51 }

/-- Lua 5.0 compile constants, from src/function/instruction/lua50.rs
(struct Settings). -/
structure Lua50Settings where
  stack_limit : Nat
  fields_per_flush : Nat
  binary_signature : List Nat
  layout : InstructionLayout
  deriving DecidableEq

/-- Default Lua 5.0 settings: fields_per_flush 32, stack_limit 250,
signature "\x1bLua", layout [Opcode(6), C(9), B(9), A(8)]. -/
def Lua50Settings.default : Lua50Settings :=
  { stack_limit := 250
    fields_per_flush := 32
    binary_signature := [27, 76, 117, 97]
    layout := defaultLayout50 }

/-- Settings::get_constant_bit: 1 << (b.size - 1). The exponent is written
(size + 63) % 64, which agrees with Rust's wrapping subtraction b.size - 1
followed by the 64-bit shift-amount mask for every size. -/
def Lua51Settings.get_constant_bit (self : Lua51Settings) : Nat :=
  1 <<< ((self.layout.b.size + 63) % 64)

/-- Settings::get_maximum_constant_index: get_constant_bit() - 1. -/
def Lua51Settings.get_maximum_constant_index (self : Lua51Settings) : Nat :=
  self.get_constant_bit - 1

/-- Bundle of the three per-version settings, from
src/function/instruction/settings.rs (struct Settings). -/
structure Settings where
  lua50 : Lua50Settings
  lua51 : Lua51Settings
  output : Lua51Settings
  deriving DecidableEq

/-- Default settings bundle. -/
def Settings.default : Settings :=
  { lua50 := Lua50Settings.default
    lua51 := Lua51Settings.default
    output := Lua51Settings.default }

/-- Lua 5.1 instruction set, from src/function/instruction/lua51.rs
(lua_instructions! macro). The per-variant operand modes BC(b, c), Bx and
SignedBx are flattened into the constructor fields: BC-mode variants carry
a, b and c, Bx-mode variants carry a and bx, and SignedBx-mode variants
carry a and a signed sbx. -/
inductive Instruction where
  | Move (a b c : Nat)
  | LoadK (a bx : Nat)
  | LoadBool (a b c : Nat)
  | LoadNil (a b c : Nat)
  | GetUpValue (a b c : Nat)
  | GetGlobal (a bx : Nat)
  | GetTable (a b c : Nat)
  | SetGlobal (a bx : Nat)
  | SetUpValue (a b c : Nat)
  | SetTable (a b c : Nat)
  | NewTable (a b c : Nat)
  | _Self (a b c : Nat)
  | Add (a b c : Nat)
  | Subtract (a b c : Nat)
  | Multiply (a b c : Nat)
  | Divide (a b c : Nat)
  | Modulo (a b c : Nat)
  | Power (a b c : Nat)
  | Unary (a b c : Nat)
  | Not (a b c : Nat)
  | Length (a b c : Nat)
  | Concatinate (a b c : Nat)
  | Jump (a : Nat) (sbx : Int)
  | Equals (a b c : Nat)
  | LessThan (a b c : Nat)
  | LessEquals (a b c : Nat)
  | Test (a b c : Nat)
  | TestSet (a b c : Nat)
  | Call (a b c : Nat)
  | TailCall (a b c : Nat)
  | Return (a b c : Nat)
  | ForLoop (a : Nat) (sbx : Int)
  | ForPrep (a : Nat) (sbx : Int)
  | TForLoop (a b c : Nat)
  | SetList (a b c : Nat)
  | Close (a b c : Nat)
  | Closure (a bx : Nat)
  | VarArg (a b c : Nat)
  deriving DecidableEq

/-- Instruction::stack_destination, from src/function/instruction/lua51.rs:
the inclusive range of stack slots the instruction writes, as a
(start, end) pair, or none. The u64 additions and the subtraction in the
Call arm wrap (wadd/wsub); VarArg uses saturating_sub, which on Nat is
plain subtraction. -/
def Instruction.stack_destination : Instruction -> Option (Nat × Nat)
  | .Move a _ _ => some (a, a)
  | .LoadK a _ => some (a, a)
  | .LoadBool a _ _ => some (a, a)
  | .LoadNil a b _ => some (a, b)
  | .GetUpValue a _ _ => some (a, a)
  | .GetGlobal a _ => some (a, a)
  | .GetTable a _ _ => some (a, a)
  | .SetGlobal _ _ => none
  | .SetUpValue _ _ _ => none
  | .SetTable a _ _ => some (a, a)
  | .NewTable a _ _ => some (a, a)
  | ._Self a _ _ => some (a, wadd a 1)
  | .Add a _ _ => some (a, a)
  | .Subtract a _ _ => some (a, a)
  | .Multiply a _ _ => some (a, a)
  | .Divide a _ _ => some (a, a)
  | .Modulo a _ _ => some (a, a)
  | .Power a _ _ => some (a, a)
  | .Unary a _ _ => some (a, a)
  | .Not a _ _ => some (a, a)
  | .Length a _ _ => some (a, a)
  | .Concatinate a _ _ => some (a, a)
  | .Jump _ _ => none
  | .Equals _ _ _ => none
  | .LessThan _ _ _ => none
  | .LessEquals _ _ _ => none
  | .Test _ _ _ => none
  | .TestSet a _ _ => some (a, a)
  | .Call a _ c => some (a, wsub (wadd a c) 1)
  | .TailCall _ _ _ => none
  | .Return _ _ _ => none
  | .ForLoop a _ => some (a, wadd a 3)
  | .ForPrep a _ => some (a, wadd a 2)
  | .TForLoop a _ c => some (a, wadd (wadd a 2) c)
  | .SetList a _ _ => some (a, a)
  | .Close _ _ _ => none
  | .Closure a _ => some (a, a)
  | .VarArg a b _ => some (a, Nat.max a (wadd a b - 1))

/-- Numeral form of the u64 modulus, for omega. -/
theorem u64Size_eq : u64Size = 18446744073709551616 := by norm_num [u64Size]

/-- C9 counterexample: a Call with C = 0 whose A operand is 1 does NOT
underflow; the u64 expression a + c - 1 computes exactly the mathematical
value a + c - 1 = 0, refuting the claim that the subtraction underflows for
every Call with C = 0. -/
theorem call_stack_destination_no_underflow :
    Instruction.stack_destination (.Call 1 0 0) = some (1, 0) ∧
    ((1 : Int) + 0 - 1 = ((0 : Nat) : Int)) := by
  exact ⟨by decide, by norm_num⟩

/-- C9 amended: stack_destination of Call computes the range
(a, (a + c) - 1) in wrapping u64 arithmetic; the subtraction underflows
exactly when a + c = 0 (that is, A = 0 and C = 0), in which case the end
wraps to 2^64 - 1 and finalize's end + 1 wraps further to 0; whenever
a + c >= 1 the end equals the exact integer a + c - 1, so finalize's
stack-size update is well defined precisely under the precondition that
every Call has A + C >= 1. -/
theorem call_stack_destination_underflow_iff (a b c : Nat) (h : a + c < u64Size) :
    Instruction.stack_destination (.Call a b c) = some (a, wsub (wadd a c) 1) ∧
    (1 ≤ a + c → ((wsub (wadd a c) 1 : Nat) : Int) = (a : Int) + (c : Int) - 1) ∧
    (a + c = 0 → wsub (wadd a c) 1 = u64Size - 1 ∧ wadd (wsub (wadd a c) 1) 1 = 0) := by
  refine ⟨rfl, ?_, ?_⟩
  · intro hge
    have hval : wsub (wadd a c) 1 = a + c - 1 := by
      unfold wsub wadd
      rw [u64Size_eq] at h ⊢
      omega
    rw [hval]
    omega
  · intro hzero
    unfold wsub wadd
    rw [u64Size_eq] at h ⊢
    omega

/-- Witness for C9's amended theorem at A = 1, C = 0. -/
theorem call_stack_destination_underflow_iff_witness :
    Instruction.stack_destination (.Call 1 0 0) = some (1, wsub (wadd 1 0) 1) ∧
    (1 ≤ 1 + 0 → ((wsub (wadd 1 0) 1 : Nat) : Int) = (1 : Int) + (0 : Int) - 1) ∧
    (1 + 0 = 0 → wsub (wadd 1 0) 1 = u64Size - 1 ∧ wadd (wsub (wadd 1 0) 1) 1 = 0) :=
  call_stack_destination_underflow_iff 1 0 0 (by rw [u64Size_eq]; omega)

/-- Builder element, from src/function/builder.rs (struct InstructionContext):
an instruction annotated with the line-weight metadata used to re-target
jumps after insertion and removal. -/
structure InstructionContext where
  instruction : Instruction
  line_weight : Int
  final_offset : Int
  is_fixed : Bool
  deriving DecidableEq

/-- InstructionContext::new: weight 0, no final offset, not fixed. -/
def InstructionContext.new (instruction : Instruction) : InstructionContext :=
  { instruction := instruction, line_weight := 0, final_offset := 0, is_fixed := false }

/-- InstructionContext::new_extra: weight 1 (an extra instruction synthesised
by the rewriter). -/
def InstructionContext.new_extra (instruction : Instruction) : InstructionContext :=
  { instruction := instruction, line_weight := 1, final_offset := 0, is_fixed := false }

/-- Mutable instruction buffer, from src/function/builder.rs
(struct InstructionBuilder; named FunctionBuilder in other snapshots of the
code base, with the same operations). -/
structure InstructionBuilder where
  contexts : List InstructionContext
  line_info : List Int
  line_number : Int
  deriving DecidableEq

/-- InstructionBuilder::default(). -/
def InstructionBuilder.default : InstructionBuilder :=
  { contexts := [], line_info := [], line_number := 0 }

/-- InstructionBuilder::set_line_number. -/
def InstructionBuilder.set_line_number (self : InstructionBuilder) (line_number : Int) :
    InstructionBuilder :=
  { self with line_number := line_number }

/-- InstructionBuilder::instruction: push a copied-through instruction and
its line number. -/
def InstructionBuilder.instruction (self : InstructionBuilder) (instruction : Instruction) :
    InstructionBuilder :=
  { self with contexts := self.contexts ++ [InstructionContext.new instruction],
              line_info := self.line_info ++ [self.line_number] }

/-- InstructionBuilder::extra_instruction: push an extra instruction (line
weight 1) and its line number. -/
def InstructionBuilder.extra_instruction (self : InstructionBuilder) (instruction : Instruction) :
    InstructionBuilder :=
  { self with contexts := self.contexts ++ [InstructionContext.new_extra instruction],
              line_info := self.line_info ++ [self.line_number] }

/-- InstructionBuilder::insert_extra_instruction: read line_info[index]
(out of bounds is a panic, modelled as none), then insert into both vectors. -/
def InstructionBuilder.insert_extra_instruction (self : InstructionBuilder) (index : Nat)
    (instruction : Instruction) : Option InstructionBuilder :=
  match self.line_info[index]? with
  | none => none
  | some line_number =>
    if index ≤ self.contexts.length then
      some { self with
              contexts := self.contexts.insertIdx index (InstructionContext.new_extra instruction),
              line_info := self.line_info.insertIdx index line_number }
    else none

/-- InstructionBuilder::remove_instruction: remove the entry at index from
both vectors, then add the removed line weight minus one to the context now
at the same index (indexing past the shortened vector is a panic, modelled
as none). -/
def InstructionBuilder.remove_instruction (self : InstructionBuilder) (index : Nat) :
    Option InstructionBuilder :=
  match self.contexts[index]? with
  | none => none
  | some removed =>
    if index < self.line_info.length then
      match (self.contexts.eraseIdx index)[index]? with
      | none => none
      | some context =>
        some { self with
                contexts := (self.contexts.eraseIdx index).set index
                  { context with line_weight := context.line_weight + removed.line_weight - 1 },
                line_info := self.line_info.eraseIdx index }
    else none

/-- InstructionBuilder::last_instruction_fixed: mark the most recent entry
as holding a jump target that must not be remapped (unwrap of an empty
buffer is a panic, modelled as none). -/
def InstructionBuilder.last_instruction_fixed (self : InstructionBuilder) :
    Option InstructionBuilder :=
  match self.contexts.getLast? with
  | none => none
  | some context =>
    some { self with contexts := self.contexts.dropLast ++ [{ context with is_fixed := true }] }

/-- InstructionBuilder::last_instruction_offset: set the final_offset of the
most recent entry. -/
def InstructionBuilder.last_instruction_offset (self : InstructionBuilder) (final_offset : Int) :
    Option InstructionBuilder :=
  match self.contexts.getLast? with
  | none => none
  | some context =>
    some { self with
            contexts := self.contexts.dropLast ++ [{ context with final_offset := final_offset }] }

/-- Read access of InstructionBuilder::get_instruction. -/
def InstructionBuilder.get_instruction (self : InstructionBuilder) (index : Nat) :
    Option Instruction :=
  match self.contexts[index]? with
  | none => none
  | some context => some context.instruction

/-- Write access through InstructionBuilder::get_instruction (the &mut
reference): replace the instruction at index. -/
def InstructionBuilder.modify_instruction (self : InstructionBuilder) (index : Nat)
    (f : Instruction → Instruction) : Option InstructionBuilder :=
  match self.contexts[index]? with
  | none => none
  | some context =>
    some { self with
            contexts := self.contexts.set index { context with instruction := f context.instruction } }

/-- InstructionBuilder::get_program_counter. -/
def InstructionBuilder.get_program_counter (self : InstructionBuilder) : Nat :=
  self.contexts.length

/-- Loop of InstructionBuilder::jump_destination. Each iteration reads the
context at context_index plus or minus offset (out of bounds, or a negative usize
index, is a panic: none), accumulates line weights into bx and steps, and
stops when steps reaches zero. The fuel contexts.length + 2 is enough for
every terminating Rust execution: offset strictly increases, so after
length + 1 iterations every candidate index is out of bounds and the Rust
loop would have panicked. -/
def jumpWalk (contexts : List InstructionContext) (context_index : Nat) :
    Nat → Int → Int → Nat → Option Int
  | 0, _, _, _ => none
  | fuel + 1, bx, steps, offset =>
    if steps = 0 then some bx
    else
      match (if bx > 0 then some (context_index + offset)
             else if offset ≤ context_index then some (context_index - offset)
             else none) with
      | none => none
      | some index =>
        match contexts[index]? with
        | none => none
        | some context =>
          jumpWalk contexts context_index fuel (bx + context.line_weight * Int.sign bx)
            (steps + context.line_weight - 1) (offset + 1)

/-- InstructionBuilder::jump_destination, from src/function/builder.rs:
the line-weight walk in the direction of sign(bx), followed by the
final_offset. -/
def jumpDestinationC (contexts : List InstructionContext) (context_index : Nat)
    (bx final_offset : Int) : Option Int :=
  let init : Int × Nat := if bx > 0 then (bx + 1, 1) else ((bx.natAbs : Int), 0)
  match jumpWalk contexts context_index (contexts.length + 2) bx init.1 init.2 with
  | none => none
  | some new_bx => some (new_bx + final_offset)

/-- Method wrapper for jump_destination. -/
def InstructionBuilder.jump_destination (self : InstructionBuilder) (context_index : Nat)
    (bx final_offset : Int) : Option Int :=
  jumpDestinationC self.contexts context_index bx final_offset

/-- InstructionBuilder::adjusted_jump_destination: same walk without
final_offset, started at program_counter - 1, error on a positive bx.
The usize subtraction program_counter - 1 on an empty buffer is an
overflow panic (none); the final as-usize cast wraps modulo 2^64. -/
def InstructionBuilder.adjusted_jump_destination (self : InstructionBuilder) (bx : Int) :
    Option (Except LunifyError Nat) :=
  if bx > 0 then some (.error .UnexpectedForwardJump)
  else
    let program_counter := self.get_program_counter
    if program_counter = 0 then none
    else
      match self.jump_destination (program_counter - 1) bx 0 with
      | none => none
      | some new_bx =>
        some (.ok ((((program_counter : Int) + new_bx) % (u64Size : Int)).toNat))

/-- Write the retargeted Bx back into a jump-family instruction (the
unreachable! arm of the source match is an identity here; finalize only
calls it on Jump, ForLoop and ForPrep). -/
def Instruction.withSignedBx : Instruction → Int → Instruction
  | .Jump a _, bx => .Jump a bx
  | .ForLoop a _, bx => .ForLoop a bx
  | .ForPrep a _, bx => .ForPrep a bx
  | instruction, _ => instruction

/-- Loop of InstructionBuilder::finalize, from src/function/builder.rs:
for each context in order, grow maxstacksize to cover its
stack_destination (failing with StackTooLarge when the required size
exceeds the Lua 5.1 stack limit of the settings; the u8 store truncates
modulo 256), then retarget the Bx of every non-fixed Jump/ForLoop/ForPrep
through the line-weight walk plus its final_offset. -/
def finalizeGo (stack_limit : Nat) :
    Nat → Nat → List InstructionContext → Nat →
    Option (Except LunifyError (List InstructionContext × Nat))
  | 0, _, contexts, maxstacksize => some (.ok (contexts, maxstacksize))
  | remaining + 1, context_index, contexts, maxstacksize =>
    match contexts[context_index]? with
    | none => none
    | some context =>
      match (match context.instruction.stack_destination with
             | some destination =>
               if wadd destination.2 1 ≤ stack_limit then
                 Except.ok (Nat.max maxstacksize (wadd destination.2 1 % 256))
               else Except.error (LunifyError.StackTooLarge (wadd destination.2 1))
             | none => Except.ok maxstacksize) with
      | .error e => some (.error e)
      | .ok maxstacksize2 =>
        match (match context.instruction, context.is_fixed with
               | .Jump _ sbx, false => some sbx
               | .ForLoop _ sbx, false => some sbx
               | .ForPrep _ sbx, false => some sbx
               | _, _ => none) with
        | some sbx =>
          (match jumpDestinationC contexts context_index sbx context.final_offset with
           | none => none
           | some bx =>
             finalizeGo stack_limit remaining (context_index + 1)
               (contexts.set context_index
                 { context with instruction := context.instruction.withSignedBx bx })
               maxstacksize2)
        | none => finalizeGo stack_limit remaining (context_index + 1) contexts maxstacksize2

/-- InstructionBuilder::finalize, from src/function/builder.rs: run the
sizing/retargeting loop over every context, then strip the metadata and
return the instructions together with line_info and the updated
maximum stack size. Note the stack limit compared against is
settings.lua51.stack_limit (the Lua 5.1 input settings). -/
def InstructionBuilder.finalize (self : InstructionBuilder) (maxstacksize : Nat)
    (settings : Settings) :
    Option (Except LunifyError (List Instruction × List Int × Nat)) :=
  match finalizeGo settings.lua51.stack_limit self.contexts.length 0 self.contexts maxstacksize with
  | none => none
  | some (.error e) => some (.error e)
  | some (.ok (contexts, maxstacksize2)) =>
    some (.ok (contexts.map (fun context => context.instruction), self.line_info, maxstacksize2))

/-- Predicate of the SETLIST repaging backward search: does the instruction
write a stack range starting exactly at slot a. -/
def Instruction.startsAt (instruction : Instruction) (a : Nat) : Bool :=
  match instruction.stack_destination with
  | some destination => destination.1 == a
  | none => false

/-- Search loop of the SETLIST repaging path, shared verbatim by
src/function/upcast.rs (lines 262-271) and src/function/convert.rs
(lines 50-59): walk backward from program_counter - 2 and return the first
index whose instruction has a stack destination starting at a, or index 0
as a fallback; the loop body is entered only for indices below
program_counter - 1. -/
def setListSetupGo (contexts : List InstructionContext) (a : Nat) : Nat → Option Nat
  | 0 => none
  | k + 1 =>
    match contexts[k]? with
    | none => none
    | some context =>
      if context.instruction.startsAt a ∨ k = 0 then some k
      else setListSetupGo contexts a k

/-- Entry point of the backward search: iterate over the reversed range
0..(program_counter - 1). -/
def setListSetupIndex (contexts : List InstructionContext) (a : Nat) : Option Nat :=
  setListSetupGo contexts a (contexts.length - 1)

theorem setListSetupGo_le (contexts : List InstructionContext) (a : Nat) :
    ∀ n k, setListSetupGo contexts a n = some k → k + 1 ≤ n := by
  intro n
  induction n with
  | zero =>
    intro k h
    simp [setListSetupGo] at h
  | succ m ih =>
    intro k h
    unfold setListSetupGo at h
    split at h
    · cases h
    · split at h
      · simp only [Option.some.injEq] at h
        omega
      · have := ih k h
        omega

/-- C10: remove_instruction needs at least one instruction after the removed
index (removing the last entry indexes out of bounds, a panic), and every
SETLIST repaging call site is safe because the backward search only returns
indices strictly below program_counter - 1, after which a replacement
SETLIST is appended. -/
theorem remove_instruction_repage_call_sites :
    (∀ b : InstructionBuilder, b.contexts ≠ [] →
       b.line_info.length = b.contexts.length →
       b.remove_instruction (b.contexts.length - 1) = none) ∧
    (∀ (b : InstructionBuilder) (a index : Nat),
       b.line_info.length = b.contexts.length →
       setListSetupIndex b.contexts a = some index →
       (b.remove_instruction index).isSome = true) := by
  constructor
  · intro b hne hlen
    have hlenpos : 0 < b.contexts.length := List.length_pos.mpr hne
    obtain ⟨removed, hx⟩ : ∃ r, b.contexts[b.contexts.length - 1]? = some r := by
      cases hx2 : b.contexts[b.contexts.length - 1]? with
      | none => rw [List.getElem?_eq_none_iff] at hx2; omega
      | some r => exact ⟨r, rfl⟩
    have hnone : (b.contexts.eraseIdx (b.contexts.length - 1))[b.contexts.length - 1]? = none := by
      rw [List.getElem?_eq_none_iff, List.length_eraseIdx_of_lt (by omega)]
    unfold InstructionBuilder.remove_instruction
    simp only [hx]
    rw [if_pos (show b.contexts.length - 1 < b.line_info.length by omega)]
    simp only [hnone]
  · intro b a index hlen hfind
    have hidx := setListSetupGo_le b.contexts a _ _ hfind
    have hlt : index + 1 < b.contexts.length := by
      unfold setListSetupIndex at hfind
      have hpos : 0 < b.contexts.length - 1 := by
        by_contra hcon
        have hz : b.contexts.length - 1 = 0 := by omega
        rw [hz] at hfind
        simp [setListSetupGo] at hfind
      omega
    obtain ⟨removed, hx⟩ : ∃ r, b.contexts[index]? = some r := by
      cases hx2 : b.contexts[index]? with
      | none => rw [List.getElem?_eq_none_iff] at hx2; omega
      | some r => exact ⟨r, rfl⟩
    obtain ⟨context, hy⟩ : ∃ cx, (b.contexts.eraseIdx index)[index]? = some cx := by
      cases hy2 : (b.contexts.eraseIdx index)[index]? with
      | none =>
        rw [List.getElem?_eq_none_iff, List.length_eraseIdx_of_lt (by omega)] at hy2
        omega
      | some cx => exact ⟨cx, rfl⟩
    unfold InstructionBuilder.remove_instruction
    simp only [hx]
    rw [if_pos (show index < b.line_info.length by omega)]
    simp only [hy, Option.isSome_some]

/-- Witness for C10 on a concrete three-instruction buffer: the search finds
the NEWTABLE at index 0 and removal there succeeds, while removing the very
last entry panics. -/
theorem remove_instruction_repage_call_sites_witness :
    ((InstructionBuilder.default.instruction (.NewTable 0 0 0)
        |>.instruction (.LoadK 1 0) |>.instruction (.SetList 0 4 1)).remove_instruction
        (((InstructionBuilder.default.instruction (.NewTable 0 0 0)
        |>.instruction (.LoadK 1 0) |>.instruction (.SetList 0 4 1)).contexts.length) - 1) = none) ∧
    (setListSetupIndex (InstructionBuilder.default.instruction (.NewTable 0 0 0)
        |>.instruction (.LoadK 1 0) |>.instruction (.SetList 0 4 1)).contexts 0 = some 0) ∧
    (((InstructionBuilder.default.instruction (.NewTable 0 0 0)
        |>.instruction (.LoadK 1 0) |>.instruction (.SetList 0 4 1)).remove_instruction 0).isSome
        = true) := by
  refine ⟨?_, by decide, ?_⟩
  · exact remove_instruction_repage_call_sites.1 _ (by decide) (by decide)
  · exact remove_instruction_repage_call_sites.2 _ 0 0 (by decide) (by decide)

theorem finalizeGo_length (stack_limit : Nat) :
    ∀ remaining context_index contexts maxstacksize contexts2 maxstacksize2,
      finalizeGo stack_limit remaining context_index contexts maxstacksize
        = some (.ok (contexts2, maxstacksize2)) →
      contexts2.length = contexts.length := by
  intro remaining
  induction remaining with
  | zero =>
    intro ci cs m cs2 m2 h
    unfold finalizeGo at h
    simp only [Option.some.injEq, Except.ok.injEq, Prod.mk.injEq] at h
    rw [← h.1]
  | succ n ih =>
    intro ci cs m cs2 m2 h
    unfold finalizeGo at h
    split at h
    · cases h
    · rename_i context hget
      split at h
      · simp at h
      · rename_i mss2 hstack
        split at h
        · rename_i sbx hJ
          split at h
          · cases h
          · rename_i bx hjd
            have hlen := ih _ _ _ _ _ h
            rw [hlen, List.length_set]
        · exact ih _ _ _ _ _ h

/-- C5: every InstructionBuilder operation preserves the invariant that the
line_info vector and the instruction context vector have equal length, and
finalize returns an instruction vector and a line_info vector of equal
length; hence every prototype built through these operations (which is all
that upcast and convert do) satisfies |line_info| = |instructions|. -/
theorem builder_line_info_length_invariant
    (b : InstructionBuilder) (instr : Instruction) (index : Nat) (line offset : Int)
    (maxstacksize : Nat) (settings : Settings)
    (hinv : b.line_info.length = b.contexts.length) :
    ((b.set_line_number line).line_info.length = (b.set_line_number line).contexts.length) ∧
    ((b.instruction instr).line_info.length = (b.instruction instr).contexts.length) ∧
    ((b.extra_instruction instr).line_info.length = (b.extra_instruction instr).contexts.length) ∧
    (∀ b2, b.insert_extra_instruction index instr = some b2 →
       b2.line_info.length = b2.contexts.length) ∧
    (∀ b2, b.remove_instruction index = some b2 →
       b2.line_info.length = b2.contexts.length) ∧
    (∀ b2, b.last_instruction_fixed = some b2 →
       b2.line_info.length = b2.contexts.length) ∧
    (∀ b2, b.last_instruction_offset offset = some b2 →
       b2.line_info.length = b2.contexts.length) ∧
    (∀ instructions line_info maxstacksize2,
       b.finalize maxstacksize settings = some (.ok (instructions, line_info, maxstacksize2)) →
       instructions.length = line_info.length) := by
  refine ⟨?_, ?_, ?_, ?_, ?_, ?_, ?_, ?_⟩
  · simpa [InstructionBuilder.set_line_number] using hinv
  · simp [InstructionBuilder.instruction, hinv]
  · simp [InstructionBuilder.extra_instruction, hinv]
  · intro b2 h
    unfold InstructionBuilder.insert_extra_instruction at h
    split at h
    · cases h
    · rename_i line_number hget
      split at h
      · rename_i hle
        simp only [Option.some.injEq] at h
        subst h
        have hidx : index < b.line_info.length := by
          by_contra hcon
          rw [List.getElem?_eq_none_iff.mpr (by omega)] at hget
          cases hget
        simp only [InstructionBuilder.contexts, InstructionBuilder.line_info]
        rw [List.length_insertIdx _ _ (show index ≤ b.line_info.length by omega),
          List.length_insertIdx _ _ hle, hinv]
      · cases h
  · intro b2 h
    unfold InstructionBuilder.remove_instruction at h
    split at h
    · cases h
    · rename_i removed hget
      split at h
      · rename_i hlt
        split at h
        · cases h
        · rename_i context hget2
          simp only [Option.some.injEq] at h
          subst h
          have hidx : index < b.contexts.length := by
            by_contra hcon
            rw [List.getElem?_eq_none_iff.mpr (by omega)] at hget
            cases hget
          simp only [List.length_set, List.length_eraseIdx_of_lt hidx,
            List.length_eraseIdx_of_lt hlt, hinv]
      · cases h
  · intro b2 h
    unfold InstructionBuilder.last_instruction_fixed at h
    split at h
    · cases h
    · rename_i context hlast
      simp only [Option.some.injEq] at h
      subst h
      have hne : b.contexts ≠ [] := by
        intro hcon
        rw [hcon] at hlast
        cases hlast
      have hpos : 0 < b.contexts.length := List.length_pos.mpr hne
      simp only [List.length_append, List.length_dropLast, List.length_singleton, hinv]
      omega
  · intro b2 h
    unfold InstructionBuilder.last_instruction_offset at h
    split at h
    · cases h
    · rename_i context hlast
      simp only [Option.some.injEq] at h
      subst h
      have hne : b.contexts ≠ [] := by
        intro hcon
        rw [hcon] at hlast
        cases hlast
      have hpos : 0 < b.contexts.length := List.length_pos.mpr hne
      simp only [List.length_append, List.length_dropLast, List.length_singleton, hinv]
      omega
  · intro instructions line_info maxstacksize2 h
    unfold InstructionBuilder.finalize at h
    split at h
    · cases h
    · simp at h
    · rename_i contexts2 mss2 hgo
      simp only [Option.some.injEq, Except.ok.injEq, Prod.mk.injEq] at h
      obtain ⟨h1, h2, h3⟩ := h
      rw [← h1, ← h2, List.length_map, finalizeGo_length _ _ _ _ _ _ _ hgo, ← hinv]

/-- Witness for C5: pushing one instruction onto the empty builder keeps the
vectors in step, and finalizing that builder returns vectors of length one. -/
theorem builder_line_info_length_invariant_witness :
    ((InstructionBuilder.default.instruction (.LoadK 0 1)).line_info.length
      = (InstructionBuilder.default.instruction (.LoadK 0 1)).contexts.length) ∧
    (([Instruction.LoadK 0 1] : List Instruction).length = ([(0 : Int)] : List Int).length) := by
  constructor
  · exact (builder_line_info_length_invariant InstructionBuilder.default (.LoadK 0 1)
      0 0 0 0 Settings.default (by decide)).2.1
  · exact (builder_line_info_length_invariant (InstructionBuilder.default.instruction (.LoadK 0 1))
      (.LoadK 0 1) 0 0 0 0 Settings.default (by decide)).2.2.2.2.2.2.2
      [Instruction.LoadK 0 1] [(0 : Int)] 1 (by rfl)

/-- Required stack size of a stack destination inside finalize:
destination.end + 1 with wrapping u64 addition. -/
def requiredStack (destination : Nat × Nat) : Nat := wadd destination.2 1

/-- Full behaviour of the finalize loop on the unprocessed suffix: an error
is always StackTooLarge, produced by some unprocessed instruction whose
required size exceeds the limit, and on success the final maxstacksize
covers the (u8-truncated) required size of every unprocessed instruction,
grows monotonically, and never exceeds max of its start value and the limit. -/
theorem finalizeGo_spec (L : Nat) :
    ∀ (remaining context_index : Nat) (contexts : List InstructionContext)
      (mss : Nat) (r : Except LunifyError (List InstructionContext × Nat)),
    context_index + remaining = contexts.length →
    finalizeGo L remaining context_index contexts mss = some r →
    ((∀ e, r = .error e → ∃ n, e = .StackTooLarge n ∧
        ∃ j context d, context_index ≤ j ∧ contexts[j]? = some context ∧
          context.instruction.stack_destination = some d ∧ requiredStack d = n ∧ L < n) ∧
     (∀ contexts2 mss2, r = .ok (contexts2, mss2) →
        (∀ j context d, context_index ≤ j → contexts[j]? = some context →
           context.instruction.stack_destination = some d →
           requiredStack d ≤ L ∧ requiredStack d % 256 ≤ mss2) ∧
        mss ≤ mss2 ∧ mss2 ≤ Nat.max mss L)) := by
  intro remaining
  induction remaining with
  | zero =>
    intro ci contexts mss r hlen h
    unfold finalizeGo at h
    simp only [Option.some.injEq] at h
    subst h
    constructor
    · intro e he
      cases he
    · intro contexts2 mss2 hok
      simp only [Except.ok.injEq, Prod.mk.injEq] at hok
      obtain ⟨hc, hm⟩ := hok
      subst hm
      refine ⟨?_, le_refl _, Nat.le_max_left _ _⟩
      intro j context d hj hget hd
      rw [List.getElem?_eq_none_iff.mpr (by omega)] at hget
      cases hget
  | succ n ih =>
    intro ci contexts mss r hlen h
    unfold finalizeGo at h
    split at h
    case h_1 hget =>
      cases h
    case h_2 context hget =>
      split at h
      case h_1 e hstack =>
        -- the stack check failed with StackTooLarge
        simp only [Option.some.injEq] at h
        subst h
        constructor
        · intro e2 he
          cases he
          split at hstack
          · rename_i destination hdest
            split at hstack
            · cases hstack
            · rename_i hgt
              simp only [Except.error.injEq] at hstack
              refine ⟨requiredStack destination, hstack.symm, ci, context, destination,
                le_refl _, hget, hdest, rfl, by unfold requiredStack; omega⟩
          · cases hstack
        · intro contexts2 mss2 hok
          cases hok
      case h_2 mss' hstack =>
        -- the stack check passed with updated maxstacksize mss'
        have hmss_le : mss ≤ mss' ∧ mss' ≤ Nat.max mss L := by
          split at hstack
          · rename_i destination hdest
            split at hstack
            · rename_i hle
              simp only [Except.ok.injEq] at hstack
              subst hstack
              refine ⟨Nat.le_max_left _ _, ?_⟩
              have hmod : requiredStack destination % 256 ≤ L :=
                le_trans (Nat.mod_le _ _) hle
              simp only [Nat.max_le]
              exact ⟨Nat.le_max_left _ _, le_trans hmod (Nat.le_max_right _ _)⟩
            · cases hstack
          · simp only [Except.ok.injEq] at hstack
            subst hstack
            exact ⟨le_refl _, Nat.le_max_left _ _⟩
        have hci_ok : ∀ d, context.instruction.stack_destination = some d →
            requiredStack d ≤ L ∧ requiredStack d % 256 ≤ mss' := by
          intro d hd
          split at hstack
          · rename_i destination hdest
            rw [hdest] at hd
            cases hd
            split at hstack
            · rename_i hle
              simp only [Except.ok.injEq] at hstack
              subst hstack
              exact ⟨hle, Nat.le_max_right _ _⟩
            · cases hstack
          · rename_i hdest
            rw [hdest] at hd
            cases hd
        split at h
        case h_1 sbx hJ =>
          split at h
          case h_1 hjd => cases h
          case h_2 bx hjd =>
            -- recursive call on the retargeted list
            have hlen2 : ci + 1 + n =
                (contexts.set ci { context with
                  instruction := context.instruction.withSignedBx bx }).length := by
              rw [List.length_set]
              omega
            have hIH := ih (ci + 1) _ mss' r hlen2 h
            have htrans : ∀ j, ci + 1 ≤ j →
                (contexts.set ci { context with
                  instruction := context.instruction.withSignedBx bx })[j]? = contexts[j]? := by
              intro j hj
              exact List.getElem?_set_ne (by omega)
            constructor
            · intro e he
              obtain ⟨m, hm, j, context3, d, hj, hget3, hd3, hreq, hL⟩ := hIH.1 e he
              rw [htrans j hj] at hget3
              exact ⟨m, hm, j, context3, d, by omega, hget3, hd3, hreq, hL⟩
            · intro contexts2 mss2 hok
              obtain ⟨hcover, hmono, hbound⟩ := hIH.2 contexts2 mss2 hok
              refine ⟨?_, le_trans hmss_le.1 hmono, ?_⟩
              · intro j context3 d hj hget3 hd3
                rcases Nat.eq_or_lt_of_le hj with hjeq | hjlt
                · subst hjeq
                  rw [hget] at hget3
                  cases hget3
                  have hx := hci_ok d hd3
                  exact ⟨hx.1, le_trans hx.2 hmono⟩
                · have hget4 := hget3
                  rw [← htrans j (by omega)] at hget4
                  exact hcover j context3 d (by omega) hget4 hd3
              · have : Nat.max mss' L ≤ Nat.max mss L := by
                  simp only [Nat.max_le]
                  constructor
                  · exact hmss_le.2
                  · exact Nat.le_max_right _ _
                exact le_trans hbound this
        case h_2 hnotjump =>
          have hIH := ih (ci + 1) _ mss' r (by omega) h
          constructor
          · intro e he
            obtain ⟨m, hm, j, context3, d, hj, hget3, hd3, hreq, hL⟩ := hIH.1 e he
            exact ⟨m, hm, j, context3, d, by omega, hget3, hd3, hreq, hL⟩
          · intro contexts2 mss2 hok
            obtain ⟨hcover, hmono, hbound⟩ := hIH.2 contexts2 mss2 hok
            refine ⟨?_, le_trans hmss_le.1 hmono, ?_⟩
            · intro j context3 d hj hget3 hd3
              rcases Nat.eq_or_lt_of_le hj with hjeq | hjlt
              · subst hjeq
                rw [hget] at hget3
                cases hget3
                have hx := hci_ok d hd3
                exact ⟨hx.1, le_trans hx.2 hmono⟩
              · exact hcover j context3 d (by omega) hget3 hd3
            · have : Nat.max mss' L ≤ Nat.max mss L := by
                simp only [Nat.max_le]
                exact ⟨hmss_le.2, Nat.le_max_right _ _⟩
              exact le_trans hbound this

/-- C3 amended: finalize fails with StackTooLarge(new_size) exactly when some
instruction's required stack size (destination end + 1, wrapping) exceeds
settings.lua51.stack_limit — the Lua 5.1 INPUT settings' limit, not the
output settings' limit as the claim states — and on success, for limits
within the u8 range, the returned maximum_stack_size covers every
instruction's required size but is only bounded by max(initial value,
lua51.stack_limit), not by the output stack limit. -/
theorem finalize_stack_sizing (settings : Settings) (b : InstructionBuilder) (mss0 : Nat)
    (hlimit : settings.lua51.stack_limit ≤ 255)
    (r : Except LunifyError (List Instruction × List Int × Nat))
    (h : b.finalize mss0 settings = some r) :
    ((∃ n, r = .error (.StackTooLarge n)) ↔
      (∃ context ∈ b.contexts, ∃ d, context.instruction.stack_destination = some d ∧
        settings.lua51.stack_limit < requiredStack d)) ∧
    (∀ n, r = .error (.StackTooLarge n) →
      ∃ context ∈ b.contexts, ∃ d, context.instruction.stack_destination = some d ∧
        requiredStack d = n ∧ settings.lua51.stack_limit < n) ∧
    (∀ instructions line_info mss, r = .ok (instructions, line_info, mss) →
      (∀ context ∈ b.contexts, ∀ d, context.instruction.stack_destination = some d →
         requiredStack d ≤ mss) ∧
      mss ≤ Nat.max mss0 settings.lua51.stack_limit) := by
  unfold InstructionBuilder.finalize at h
  split at h
  case h_1 hgo => cases h
  case h_2 e hgo =>
    simp only [Option.some.injEq] at h
    subst h
    have hspec := finalizeGo_spec settings.lua51.stack_limit b.contexts.length 0
      b.contexts mss0 (.error e) (by omega) hgo
    obtain ⟨n, hn, j, context, d, hj, hget, hd, hreq, hL⟩ := hspec.1 e rfl
    subst hn
    refine ⟨?_, ?_, ?_⟩
    · constructor
      · intro _
        exact ⟨context, List.getElem?_mem hget, d, hd, by omega⟩
      · intro _
        exact ⟨n, rfl⟩
    · intro n2 hn2
      simp only [Except.error.injEq, LunifyError.StackTooLarge.injEq] at hn2
      subst hn2
      exact ⟨context, List.getElem?_mem hget, d, hd, hreq, hL⟩
    · intro instructions line_info mss hok
      cases hok
  case h_3 contexts2 mss2 hgo =>
    simp only [Option.some.injEq] at h
    subst h
    have hspec := finalizeGo_spec settings.lua51.stack_limit b.contexts.length 0
      b.contexts mss0 (.ok (contexts2, mss2)) (by omega) hgo
    obtain ⟨hcover, hmono, hbound⟩ := hspec.2 contexts2 mss2 rfl
    refine ⟨?_, ?_, ?_⟩
    · constructor
      · intro ⟨n, hn⟩
        cases hn
      · intro ⟨context, hmem, d, hd, hL⟩
        obtain ⟨j, hget⟩ := List.mem_iff_getElem?.mp hmem
        have := (hcover j context d (by omega) hget hd).1
        omega
    · intro n hn
      cases hn
    · intro instructions line_info mss hok
      simp only [Except.ok.injEq, Prod.mk.injEq] at hok
      obtain ⟨h1, h2, h3⟩ := hok
      subst h3
      constructor
      · intro context hmem d hd
        obtain ⟨j, hget⟩ := List.mem_iff_getElem?.mp hmem
        obtain ⟨hle, hmod⟩ := hcover j context d (by omega) hget hd
        have heq : requiredStack d % 256 = requiredStack d :=
          Nat.mod_eq_of_lt (by omega)
        omega
      · exact hbound

/-- C3 counterexample: with output.stack_limit = 3 (and the Lua 5.1 input
limit left at 250), an instruction requiring 11 stack slots makes finalize
SUCCEED and report maximum_stack_size 11, even though 11 exceeds the output
settings' stack limit — the code compares against settings.lua51.stack_limit,
so neither the StackTooLarge condition nor the bound claimed against
output.stack_limit holds. -/
theorem finalize_output_limit_counterexample :
    ((InstructionBuilder.default.instruction (.LoadK 10 1)).finalize 0
        { Settings.default with output := { Lua51Settings.default with stack_limit := 3 } }
      = some (.ok ([Instruction.LoadK 10 1], [(0 : Int)], 11))) ∧
    ((Instruction.LoadK 10 1).stack_destination = some (10, 10)) ∧
    (requiredStack (10, 10) = 11) ∧
    (({ Settings.default with
        output := { Lua51Settings.default with stack_limit := 3 } } : Settings).output.stack_limit
      = 3) ∧
    ¬ (11 ≤ 3) := by
  refine ⟨by rfl, rfl, by rfl, rfl, by omega⟩

/-- Witness for C3's amended theorem on a one-instruction builder. -/
theorem finalize_stack_sizing_witness :
    requiredStack (10, 10) ≤ 11 ∧ 11 ≤ Nat.max 0 Settings.default.lua51.stack_limit := by
  have h := (finalize_stack_sizing Settings.default
      (InstructionBuilder.default.instruction (.LoadK 10 1)) 0
      (by norm_num [Settings.default, Lua51Settings.default])
      (.ok ([Instruction.LoadK 10 1], [(0 : Int)], 11)) (by rfl)).2.2
      [Instruction.LoadK 10 1] [(0 : Int)] 11 rfl
  refine ⟨h.1 (InstructionContext.new (.LoadK 10 1)) ?_ (10, 10) rfl, h.2⟩
  simp [InstructionBuilder.instruction, InstructionBuilder.default]

/-- Number type, from src/number.rs. Finite f64 values form a subset of the
rationals; the Float constructor carries the exact rational value of the
double (non-finite values do not occur in the claims settled here). -/
inductive Number where
  | Float (value : ℚ)
  | Integer (value : Int)
  deriving DecidableEq

/-- Rust f64::round: round half away from zero (exact on the rational model
of double values, since the rounded result of a finite double is exactly
representable). -/
def rustRound (value : ℚ) : Int :=
  if 0 ≤ value then ⌊value + 1 / 2⌋ else ⌈value - 1 / 2⌉

/-- Saturating float-to-i64 cast (value as i64): truncation toward zero,
clamped to the i64 range. -/
def rustFloatAsI64 (value : ℚ) : Int :=
  if (2 : ℚ) ^ 63 ≤ value then 2 ^ 63 - 1
  else if value ≤ -((2 : ℚ) ^ 63) then -(2 ^ 63)
  else if 0 ≤ value then ⌊value⌋ else ⌈value⌉

/-- f64::MAX as i64: the saturating cast yields i64::MAX = 2^63 - 1. -/
def f64MaxAsI64 : Int := 2 ^ 63 - 1

/-- Largest finite binary64 value, (2^53 - 1) * 2^971. -/
def f64MaxValue : ℚ := (2 ^ 53 - 1) * 2 ^ 971

/-- Number::as_integer, from src/number.rs: integers pass through; a float
succeeds exactly when value == value.round(). -/
def Number.as_integer : Number → Except LunifyError Int
  | .Integer value => .ok value
  | .Float value =>
    if value = (rustRound value : ℚ) then .ok (rustFloatAsI64 value)
    else .error .FloatPrecisionLoss

/-- Number::as_float, from src/number.rs: floats pass through; an integer
succeeds exactly when value < f64::MAX as i64 (which saturates to
i64::MAX). The integer-to-double conversion itself is modelled as the exact
rational cast. -/
def Number.as_float : Number → Except LunifyError ℚ
  | .Float value => .ok value
  | .Integer value =>
    if value < f64MaxAsI64 then .ok ((value : ℚ))
    else .error .IntegerOverflow

theorem rustRound_eq_self_iff (q : ℚ) : q = (rustRound q : ℚ) ↔ q.den = 1 := by
  constructor
  · intro h
    rw [h]
    exact Rat.den_intCast _
  · intro h
    have hq : ((q.num : ℚ)) = q := (Rat.den_eq_one_iff q).mp h
    have hfloor : ⌊(1 / 2 : ℚ)⌋ = 0 := by
      rw [Int.floor_eq_iff] <;> norm_num
    have hceil : ⌈(-(1 / 2) : ℚ)⌉ = 0 := by
      rw [Int.ceil_eq_iff] <;> norm_num
    unfold rustRound
    split
    · rw [← hq, Int.floor_int_add, hfloor, add_zero]
    · rw [← hq, show ((q.num : ℚ) - 1 / 2) = (-(1 / 2 : ℚ)) + (q.num : ℚ) from by ring,
        Int.ceil_add_int, hceil, zero_add]

/-- C8 amended: float-to-integer conversion fails with FloatPrecisionLoss
exactly when the value is fractional (denominator not 1), and
integer-to-float conversion fails with IntegerOverflow exactly when the
value equals i64::MAX = 2^63 - 1 — because the guard compares against
f64::MAX as i64, which saturates to i64::MAX — and never for any other
value, in particular never for negative values. -/
theorem number_conversion_failures :
    (∀ q : ℚ, Number.as_integer (.Float q) = .error .FloatPrecisionLoss ↔ q.den ≠ 1) ∧
    (∀ v : Int, -(2 ^ 63) ≤ v → v < 2 ^ 63 →
      (Number.as_float (.Integer v) = .error .IntegerOverflow ↔ v = 2 ^ 63 - 1)) := by
  constructor
  · intro q
    simp only [Number.as_integer]
    split
    · rename_i heq
      constructor
      · intro h
        cases h
      · intro hden
        exact absurd ((rustRound_eq_self_iff q).mp heq) hden
    · rename_i hne
      constructor
      · intro _
        intro hden
        exact hne ((rustRound_eq_self_iff q).mpr hden)
      · intro _
        rfl
  · intro v hlo hhi
    simp only [Number.as_float, f64MaxAsI64]
    split
    · rename_i hlt
      constructor
      · intro h
        cases h
      · intro heq
        omega
    · rename_i hge
      constructor
      · intro _
        omega
      · intro _
        rfl

/-- C8 counterexample: i64::MAX is far below what binary64 can represent
(f64::MAX = (2^53 - 1) * 2^971), yet as_float fails with IntegerOverflow on
it; and the negative extreme i64::MIN succeeds, so the failure condition is
not about magnitude exceeding the representable range at all. -/
theorem as_float_i64_max_counterexample :
    Number.as_float (.Integer (2 ^ 63 - 1)) = .error .IntegerOverflow ∧
    ((2 ^ 63 - 1 : ℚ) < f64MaxValue) ∧
    Number.as_float (.Integer (-(2 ^ 63))) = .ok ((-((2 : Int) ^ 63) : Int) : ℚ) := by
  refine ⟨?_, ?_, ?_⟩
  · rfl
  · unfold f64MaxValue
    have h1 : (2 : ℚ) ^ 63 ≤ (2 : ℚ) ^ 971 :=
      pow_le_pow_right₀ (by norm_num) (by norm_num)
    have h2 : (2 : ℚ) ^ 971 ≤ (2 ^ 53 - 1) * 2 ^ 971 := by
      have hpos : (0 : ℚ) < 2 ^ 971 := by positivity
      nlinarith [hpos]
    linarith
  · rfl

/-- Witness for C8's amended theorem at the fractional value 21/2 and at
i64::MAX. -/
theorem number_conversion_failures_witness :
    Number.as_integer (.Float ((21 : ℚ) / 2)) = .error .FloatPrecisionLoss ∧
    Number.as_float (.Integer (2 ^ 63 - 1)) = .error .IntegerOverflow := by
  constructor
  · exact (number_conversion_failures.1 ((21 : ℚ) / 2)).mpr (by norm_num)
  · exact (number_conversion_failures.2 (2 ^ 63 - 1) (by norm_num) (by norm_num)).mpr rfl

/-- Constant pool entry, from src/function/constant.rs (enum Constant). -/
inductive Constant where
  | Nil
  | Boolean (value : Bool)
  | Number (value : Number)
  | String (value : String)
  deriving DecidableEq

/-- Lookup predicate of constant_for_str: a String constant equal to the
zero-terminated search string. -/
def matchesString (zero_terminated : String) (constant : Constant) : Bool :=
  match constant with
  | .String string => string == zero_terminated
  | _ => false

/-- Lookup predicate of constant_nil. -/
def isNilConstant (constant : Constant) : Bool :=
  match constant with
  | .Nil => true
  | _ => false

/-- ConstantManager::allocate_new_constant, from src/function/constant.rs:
the new index is the current pool length and must not exceed the output
settings' maximum constant index. -/
def allocate_new_constant (settings : Settings) (constants : List Constant) :
    Except LunifyError Nat :=
  if constants.length ≤ settings.output.get_maximum_constant_index then
    .ok constants.length
  else .error (.TooManyConstants constants.length)

/-- Name template of create_unique:
"__%lunify%__temp" followed by the program counter, an underscore, the
disambiguating index and a NUL. -/
def uniqueName (program_counter index : Nat) : String :=
  "__%lunify%__temp" ++ toString program_counter ++ "_" ++ toString index ++ "\x00"

/-- Search loop of create_unique: the smallest index whose name is absent
from the pool. Fuel |constants| + 1 always suffices because the candidate
names are pairwise distinct, so the Rust loop terminates within that many
steps. -/
def findUniqueGo (constants : List Constant) (program_counter : Nat) :
    Nat → Nat → Constant
  | index, 0 => .String (uniqueName program_counter index)
  | index, fuel + 1 =>
    if (Constant.String (uniqueName program_counter index)) ∈ constants then
      findUniqueGo constants program_counter (index + 1) fuel
    else .String (uniqueName program_counter index)

/-- ConstantManager::create_unique, from src/function/constant.rs: allocate
a new index (fallible), then append a freshly minted unique sentinel
string. -/
def create_unique (settings : Settings) (constants : List Constant)
    (program_counter : Nat) : Except LunifyError (Nat × List Constant) :=
  match allocate_new_constant settings constants with
  | .error e => .error e
  | .ok unique_constant =>
    .ok (unique_constant,
      constants ++ [findUniqueGo constants program_counter 0 (constants.length + 1)])

/-- ConstantManager::constant_for_str, from src/function/constant.rs:
zero-terminate, return the position of an existing equal constant, else
allocate a new index and append. -/
def constant_for_str (settings : Settings) (constants : List Constant)
    (constant_str : String) : Except LunifyError (Nat × List Constant) :=
  match constants.findIdx? (matchesString (constant_str ++ "\x00")) with
  | some index => .ok (index, constants)
  | none =>
    match allocate_new_constant settings constants with
    | .error e => .error e
    | .ok constant => .ok (constant, constants ++ [.String (constant_str ++ "\x00")])

/-- ConstantManager::constant_nil, from src/function/constant.rs: return the
position of an existing Nil, else allocate a new index and append. -/
def constant_nil (settings : Settings) (constants : List Constant) :
    Except LunifyError (Nat × List Constant) :=
  match constants.findIdx? isNilConstant with
  | some index => .ok (index, constants)
  | none =>
    match allocate_new_constant settings constants with
    | .error e => .error e
    | .ok constant => .ok (constant, constants ++ [.Nil])

/-- C6: every constant allocation (create_unique always; constant_for_str
and constant_nil on a lookup miss) fails with TooManyConstants(new_index)
exactly when the new index — the current pool length — exceeds the output's
maximum constant index, which equals 2^(output B size - 1) - 1; a lookup
that finds an existing equal constant returns its index and never fails. -/
theorem constant_allocation_limit (settings : Settings) (constants : List Constant)
    (program_counter : Nat) (s : String)
    (hbsize : 1 ≤ settings.output.layout.b.size)
    (hb64 : settings.output.layout.b.size ≤ 64) :
    (settings.output.get_maximum_constant_index
       = 2 ^ (settings.output.layout.b.size - 1) - 1) ∧
    ((∃ e, create_unique settings constants program_counter = .error e) ↔
       settings.output.get_maximum_constant_index < constants.length) ∧
    (settings.output.get_maximum_constant_index < constants.length →
       create_unique settings constants program_counter
         = .error (.TooManyConstants constants.length)) ∧
    (∀ index, constants.findIdx? (matchesString (s ++ "\x00")) = some index →
       constant_for_str settings constants s = .ok (index, constants)) ∧
    (constants.findIdx? (matchesString (s ++ "\x00")) = none →
       ((∃ e, constant_for_str settings constants s = .error e) ↔
          settings.output.get_maximum_constant_index < constants.length)) ∧
    (∀ index, constants.findIdx? isNilConstant = some index →
       constant_nil settings constants = .ok (index, constants)) ∧
    (constants.findIdx? isNilConstant = none →
       ((∃ e, constant_nil settings constants = .error e) ↔
          settings.output.get_maximum_constant_index < constants.length)) := by
  have hbit : settings.output.get_constant_bit = 2 ^ (settings.output.layout.b.size - 1) := by
    unfold Lua51Settings.get_constant_bit
    rw [Nat.shiftLeft_eq, one_mul]
    congr 1
    omega
  have hmax : settings.output.get_maximum_constant_index
      = 2 ^ (settings.output.layout.b.size - 1) - 1 := by
    unfold Lua51Settings.get_maximum_constant_index
    rw [hbit]
  have halloc_ok : settings.output.get_maximum_constant_index < constants.length ∨
      allocate_new_constant settings constants = .ok constants.length := by
    unfold allocate_new_constant
    by_cases hc : constants.length ≤ settings.output.get_maximum_constant_index
    · right
      rw [if_pos hc]
    · left
      omega
  refine ⟨hmax, ?_, ?_, ?_, ?_, ?_, ?_⟩
  · constructor
    · intro ⟨e, he⟩
      unfold create_unique allocate_new_constant at he
      by_cases hc : constants.length ≤ settings.output.get_maximum_constant_index
      · rw [if_pos hc] at he
        cases he
      · omega
    · intro hlt
      refine ⟨.TooManyConstants constants.length, ?_⟩
      unfold create_unique allocate_new_constant
      rw [if_neg (by omega)]
  · intro hlt
    unfold create_unique allocate_new_constant
    rw [if_neg (by omega)]
  · intro index hfind
    unfold constant_for_str
    rw [hfind]
  · intro hfind
    unfold constant_for_str
    rw [hfind]
    constructor
    · intro ⟨e, he⟩
      unfold allocate_new_constant at he
      by_cases hc : constants.length ≤ settings.output.get_maximum_constant_index
      · rw [if_pos hc] at he
        cases he
      · omega
    · intro hlt
      refine ⟨.TooManyConstants constants.length, ?_⟩
      unfold allocate_new_constant
      rw [if_neg (by omega)]
  · intro index hfind
    unfold constant_nil
    rw [hfind]
  · intro hfind
    unfold constant_nil
    rw [hfind]
    constructor
    · intro ⟨e, he⟩
      unfold allocate_new_constant at he
      by_cases hc : constants.length ≤ settings.output.get_maximum_constant_index
      · rw [if_pos hc] at he
        cases he
      · omega
    · intro hlt
      refine ⟨.TooManyConstants constants.length, ?_⟩
      unfold allocate_new_constant
      rw [if_neg (by omega)]

/-- Witness for C6: with the default layout (B size 9) the maximum constant
index is 255, and allocating into a pool of 256 constants fails with
TooManyConstants(256). -/
theorem constant_allocation_limit_witness :
    (Settings.default.output.get_maximum_constant_index = 2 ^ 8 - 1) ∧
    (create_unique Settings.default (List.replicate 256 .Nil) 0
      = .error (.TooManyConstants 256)) := by
  have h := constant_allocation_limit Settings.default (List.replicate 256 .Nil) 0 "x"
    (by decide) (by decide)
  refine ⟨h.1, ?_⟩
  have h2 := h.2.2.1 (by decide)
  simpa using h2

/-- Bit widths of Lua-internal types, from src/format/width.rs. -/
inductive BitWidth where
  | Bit32
  | Bit64
  deriving DecidableEq

/-- BitWidth::try_from(u8): only the width bytes 4 and 8 are supported. -/
def BitWidth.try_from (value : Nat) : Except Nat BitWidth :=
  match value with
  | 4 => .ok .Bit32
  | 8 => .ok .Bit64
  | width => .error width

/-- u8::from(BitWidth). -/
def BitWidth.toByte : BitWidth → Nat
  | .Bit32 => 4
  | .Bit64 => 8

/-- Endianness, from src/format/endianness.rs. -/
inductive Endianness where
  | Big
  | Little
  deriving DecidableEq

/-- Endianness::try_from(u8): 0 is big endian, 1 is little endian. -/
def Endianness.try_from (value : Nat) : Except LunifyError Endianness :=
  match value with
  | 0 => .ok .Big
  | 1 => .ok .Little
  | endianness => .error (.InvaildEndianness endianness)

/-- u8::from(Endianness). -/
def Endianness.toByte : Endianness → Nat
  | .Big => 0
  | .Little => 1

/-- Lua bytecode format, from src/format/mod.rs (struct Format). -/
structure Format where
  format : Nat
  endianness : Endianness
  integer_width : BitWidth
  size_t_width : BitWidth
  instruction_width : BitWidth
  number_width : BitWidth
  is_number_integral : Bool
  deriving DecidableEq

/-- Format::default() on a little-endian host with 64-bit pointers (the
cfg-dependent branches of the source resolved for the common x86-64
target). -/
def Format.default : Format :=
  { format := 0
    endianness := .Little
    integer_width := .Bit32
    size_t_width := .Bit64
    instruction_width := .Bit32
    number_width := .Bit64
    is_number_integral := false }

/-- Little-endian byte-list decoding. -/
def natFromBytesLE : List Nat → Nat
  | [] => 0
  | b :: rest => b % 256 + 256 * natFromBytesLE rest

/-- Endian-aware byte-list decoding. -/
def natFromBytes (e : Endianness) (bytes : List Nat) : Nat :=
  match e with
  | .Little => natFromBytesLE bytes
  | .Big => natFromBytesLE bytes.reverse

/-- i32::from_xx_bytes followed by the sign-extending cast to i64. -/
def i32FromBytes (e : Endianness) (bytes : List Nat) : Int :=
  let v := natFromBytes e bytes
  if v < 2 ^ 31 then (v : Int) else (v : Int) - 2 ^ 32

/-- i64::from_xx_bytes. -/
def i64FromBytes (e : Endianness) (bytes : List Nat) : Int :=
  let v := natFromBytes e bytes
  if v < 2 ^ 63 then (v : Int) else (v : Int) - 2 ^ 64

/-- Little-endian fixed-width encoding of the low bytes of a value. -/
def natToBytesLE : Nat → Nat → List Nat
  | 0, _ => []
  | width + 1, value => value % 256 :: natToBytesLE width (value / 256)

/-- The to_slice! macro of src/serialization/macros.rs for a signed value:
truncate to the configured width (the as-i32 cast for 32-bit widths) and
emit the bytes in the configured endianness. -/
def intToBytes (e : Endianness) (width : BitWidth) (value : Int) : List Nat :=
  let bytes :=
    match width with
    | .Bit32 => natToBytesLE 4 ((value % (2 ^ 32 : Int)).toNat)
    | .Bit64 => natToBytesLE 8 ((value % (2 ^ 64 : Int)).toNat)
  match e with
  | .Little => bytes
  | .Big => bytes.reverse

/-- Byte stream (positional cursor over the input), from
src/serialization/stream.rs. -/
structure ByteStream where
  data : List Nat
  offset : Nat
  format : Format
  deriving DecidableEq

/-- ByteStream::new. -/
def ByteStream.new (data : List Nat) : ByteStream :=
  { data := data, offset := 0, format := Format.default }

/-- ByteStream::set_format. -/
def ByteStream.set_format (self : ByteStream) (format : Format) : ByteStream :=
  { self with format := format }

/-- ByteStream::byte: read one byte or fail with InputTooShort. -/
def ByteStream.byte (self : ByteStream) : Except LunifyError (Nat × ByteStream) :=
  match self.data[self.offset]? with
  | some b => .ok (b, { self with offset := self.offset + 1 })
  | none => .error .InputTooShort

/-- ByteStream::slice: advance the cursor by length and return the bytes,
failing with InputTooShort past the end. -/
def ByteStream.slice (self : ByteStream) (length : Nat) :
    Except LunifyError (List Nat × ByteStream) :=
  if self.offset + length > self.data.length then .error .InputTooShort
  else .ok ((self.data.drop self.offset).take length,
            { self with offset := self.offset + length })

/-- ByteStream::size_t: the from_slice! macro reads size_t_width bytes and
decodes them as i32 (sign-extended) or i64 depending on the width. -/
def ByteStream.size_t (self : ByteStream) : Except LunifyError (Int × ByteStream) :=
  match self.slice self.format.size_t_width.toByte with
  | .error e => .error e
  | .ok (bytes, s) =>
    match self.format.size_t_width with
    | .Bit32 => .ok (i32FromBytes self.format.endianness bytes, s)
    | .Bit64 => .ok (i64FromBytes self.format.endianness bytes, s)

/-- The as-usize cast applied to the size_t value (wrapping). -/
def intAsUsize (value : Int) : Nat := (value % (u64Size : Int)).toNat

/-- ByteStream::string, from src/serialization/stream.rs: read a size_t
length, then that many payload bytes, mapping each byte to the char with
that code point (byte as char). A Rust String is modelled as the list of
its chars' code points. -/
def ByteStream.string (self : ByteStream) : Except LunifyError (List Nat × ByteStream) :=
  match self.size_t with
  | .error e => .error e
  | .ok (length, s) =>
    if s.offset + intAsUsize length > s.data.length then .error .InputTooShort
    else .ok ((s.data.drop s.offset).take (intAsUsize length),
              { s with offset := s.offset + intAsUsize length })

/-- Byte writer, from src/serialization/writer.rs. -/
structure ByteWriter where
  data : List Nat
  format : Format
  deriving DecidableEq

/-- ByteWriter::new. -/
def ByteWriter.new (format : Format) : ByteWriter := { data := [], format := format }

/-- ByteWriter::byte. -/
def ByteWriter.byte (self : ByteWriter) (b : Nat) : ByteWriter :=
  { self with data := self.data ++ [b] }

/-- ByteWriter::slice. -/
def ByteWriter.slice (self : ByteWriter) (bytes : List Nat) : ByteWriter :=
  { self with data := self.data ++ bytes }

/-- ByteWriter::size_t: the to_slice! macro with the configured width and
endianness. -/
def ByteWriter.size_t (self : ByteWriter) (value : Int) : ByteWriter :=
  self.slice (intToBytes self.format.endianness self.format.size_t_width value)

/-- UTF-8 encoding of a single char code point, as produced by Rust's
str::as_bytes. -/
def utf8Encode (c : Nat) : List Nat :=
  if c < 0x80 then [c]
  else if c < 0x800 then [0xC0 + c / 64, 0x80 + c % 64]
  else if c < 0x10000 then [0xE0 + c / 4096, 0x80 + (c / 64) % 64, 0x80 + c % 64]
  else [0xF0 + c / 262144, 0x80 + (c / 4096) % 64, 0x80 + (c / 64) % 64, 0x80 + c % 64]

/-- UTF-8 bytes of a Rust String (list of char code points); its length is
what String::len returns. -/
def stringBytes (s : List Nat) : List Nat := (s.map utf8Encode).flatten

/-- ByteWriter::string, from src/serialization/writer.rs: write the UTF-8
byte length as a size_t, then the UTF-8 bytes. -/
def ByteWriter.string (self : ByteWriter) (value : List Nat) : ByteWriter :=
  (self.size_t ((stringBytes value).length : Int)).slice (stringBytes value)

/-- The payload formats used in claim C7: identical except for the size_t
width. -/
def fmt32 (e : Endianness) : Format :=
  { format := 0, endianness := e, integer_width := .Bit32, size_t_width := .Bit32,
    instruction_width := .Bit32, number_width := .Bit64, is_number_integral := false }

/-- Companion output format of fmt32 with a 64-bit size_t. -/
def fmt64 (e : Endianness) : Format :=
  { fmt32 e with size_t_width := .Bit64 }

theorem natToBytesLE_length (width value : Nat) : (natToBytesLE width value).length = width := by
  induction width generalizing value with
  | zero => rfl
  | succ w ih => simp [natToBytesLE, ih]

theorem natFromBytesLE_natToBytesLE (width value : Nat) :
    natFromBytesLE (natToBytesLE width value) = value % 256 ^ width := by
  induction width generalizing value with
  | zero =>
    simp only [natToBytesLE, natFromBytesLE]
    omega
  | succ w ih =>
    simp only [natToBytesLE, natFromBytesLE, ih]
    rw [pow_succ']
    rw [Nat.mod_mul]
    omega

theorem natFromBytes_intToBytes (e : Endianness) (n : Nat) (hn : n < 2 ^ 32) :
    natFromBytes e (intToBytes e .Bit32 (n : Int)) = n := by
  have htoNat : (((n : Int)) % (2 ^ 32 : Int)).toNat = n := by omega
  cases e with
  | Little =>
    simp only [natFromBytes, intToBytes, htoNat]
    rw [natFromBytesLE_natToBytesLE]
    have : (256 : Nat) ^ 4 = 2 ^ 32 := by norm_num
    omega
  | Big =>
    simp only [natFromBytes, intToBytes, htoNat, List.reverse_reverse]
    rw [natFromBytesLE_natToBytesLE]
    have : (256 : Nat) ^ 4 = 2 ^ 32 := by norm_num
    omega

theorem intToBytes_length32 (e : Endianness) (value : Int) :
    (intToBytes e .Bit32 value).length = 4 := by
  cases e <;> simp [intToBytes, natToBytesLE_length]

theorem stringBytes_ascii (payload : List Nat) (hascii : ∀ b ∈ payload, b < 0x80) :
    stringBytes payload = payload := by
  induction payload with
  | nil => rfl
  | cons b rest ih =>
    have hb : b < 0x80 := hascii b (by simp)
    have hrest : ∀ x ∈ rest, x < 0x80 := fun x hx => hascii x (by simp [hx])
    simp only [stringBytes, List.map_cons, List.flatten_cons]
    rw [show utf8Encode b = [b] from by simp [utf8Encode, hb]]
    simpa [stringBytes] using ih hrest

/-- C7 counterexample: a length-1 string whose single payload byte is 0x80
is read as the char U+0080, and re-serializing it with a 64-bit size_t
output format emits the two-byte UTF-8 encoding C2 80 with length 2 — not
the original payload byte with length 1 as the claim states. -/
theorem string_high_byte_counterexample :
    (ByteStream.string { data := [1, 0, 0, 0, 128], offset := 0, format := fmt32 .Little }
      = .ok ([128], { data := [1, 0, 0, 0, 128], offset := 5, format := fmt32 .Little })) ∧
    ((ByteWriter.string { data := [], format := fmt64 .Little } [128]).data
      = [2, 0, 0, 0, 0, 0, 0, 0, 0xC2, 0x80]) ∧
    ([2, 0, 0, 0, 0, 0, 0, 0, 0xC2, 0x80] : List Nat) ≠ [1, 0, 0, 0, 0, 0, 0, 0, 128] := by
  refine ⟨by rfl, by rfl, by decide⟩

theorem ByteStream.size_t_ok32 (s : ByteStream) (bytes : List Nat) (s2 : ByteStream)
    (hw : s.format.size_t_width = .Bit32)
    (hsl : s.slice 4 = .ok (bytes, s2)) :
    s.size_t = .ok (i32FromBytes s.format.endianness bytes, s2) := by
  unfold ByteStream.size_t
  have h4 : s.format.size_t_width.toByte = 4 := by
    rw [hw]
    rfl
  rw [h4]
  simp only [hsl, hw]

theorem ByteStream.string_ok (s : ByteStream) (s2 : ByteStream) (n : Int)
    (hsl : s.size_t = .ok (n, s2))
    (hbound : ¬ (s2.offset + intAsUsize n > s2.data.length)) :
    s.string = .ok ((s2.data.drop s2.offset).take (intAsUsize n),
                    { s2 with offset := s2.offset + intAsUsize n }) := by
  unfold ByteStream.string
  simp only [hsl]
  rw [if_neg hbound]

/-- C7 amended: for payloads of bytes below 0x80 (ASCII), parsing a
length-prefixed string with a 32-bit size_t format and re-serializing it
with a format differing only in a 64-bit size_t reproduces the payload
bytes unchanged and only grows the length prefix from 4 to 8 bytes; bytes
at or above 0x80 are instead re-encoded as multi-byte UTF-8 (see the
counterexample). -/
theorem string_reserialize_width_upgrade (e : Endianness) (payload rest ws : List Nat)
    (hlen : payload.length < 2 ^ 31) (hascii : ∀ b ∈ payload, b < 0x80) :
    (ByteStream.string { data := intToBytes e .Bit32 (payload.length : Int) ++ payload ++ rest,
                         offset := 0, format := fmt32 e }
      = .ok (payload,
             { data := intToBytes e .Bit32 (payload.length : Int) ++ payload ++ rest,
               offset := 4 + payload.length, format := fmt32 e })) ∧
    ((ByteWriter.string { data := ws, format := fmt64 e } payload).data
      = ws ++ intToBytes e .Bit64 (payload.length : Int) ++ payload) := by
  constructor
  · have hlen4 : (intToBytes e .Bit32 (payload.length : Int)).length = 4 :=
      intToBytes_length32 e _
    have hdatalen :
        (intToBytes e .Bit32 (payload.length : Int) ++ payload ++ rest).length
          = 4 + payload.length + rest.length := by
      simp only [List.length_append, hlen4]
    have hslice_ok : ({ data := intToBytes e .Bit32 (payload.length : Int) ++ payload ++ rest,
                        offset := 0, format := fmt32 e } : ByteStream).slice 4
        = .ok (intToBytes e .Bit32 (payload.length : Int),
               { data := intToBytes e .Bit32 (payload.length : Int) ++ payload ++ rest,
                 offset := 0 + 4, format := fmt32 e }) := by
      unfold ByteStream.slice
      rw [if_neg (by simp only [hdatalen]; omega)]
      simp only [List.drop_zero, Except.ok.injEq, Prod.mk.injEq]
      refine ⟨?_, trivial⟩
      rw [List.append_assoc, List.take_left' hlen4]
    have hsizet := ByteStream.size_t_ok32 _ _ _ rfl hslice_ok
    have hvalue : i32FromBytes
        ({ data := intToBytes e .Bit32 (payload.length : Int) ++ payload ++ rest,
           offset := 0, format := fmt32 e } : ByteStream).format.endianness
          (intToBytes e .Bit32 (payload.length : Int)) = (payload.length : Int) := by
      have hdecode : natFromBytes e (intToBytes e .Bit32 (payload.length : Int))
          = payload.length := natFromBytes_intToBytes e _ (by omega)
      show i32FromBytes e (intToBytes e .Bit32 (payload.length : Int)) = (payload.length : Int)
      unfold i32FromBytes
      rw [hdecode, if_pos (by omega)]
    rw [hvalue] at hsizet
    have husize : intAsUsize ((payload.length : Nat) : Int) = payload.length := by
      unfold intAsUsize u64Size
      omega
    have hbound : ¬ ((0 + 4 : Nat) + intAsUsize ((payload.length : Nat) : Int)
        > (intToBytes e .Bit32 (payload.length : Int) ++ payload ++ rest).length) := by
      rw [husize, hdatalen]
      omega
    have hstr := ByteStream.string_ok _ _ _ hsizet hbound
    rw [hstr]
    have hdrop : (intToBytes e .Bit32 (payload.length : Int) ++ payload ++ rest).drop (0 + 4)
        = payload ++ rest := by
      rw [List.append_assoc, List.drop_left' hlen4]
    simp only [husize, hdrop, Except.ok.injEq, Prod.mk.injEq]
    refine ⟨List.take_left' rfl, ?_⟩
    simp only [ByteStream.mk.injEq, true_and, and_true]
  · unfold ByteWriter.string ByteWriter.size_t ByteWriter.slice
    rw [stringBytes_ascii payload hascii]
    simp only [fmt64, fmt32, List.append_assoc]

/-- Witness for C7's amended theorem on the two-byte ASCII payload "Hi". -/
theorem string_reserialize_width_upgrade_witness :
    (ByteStream.string { data := intToBytes .Little .Bit32 (([72, 105].length : Nat) : Int)
                                   ++ [72, 105] ++ [],
                         offset := 0, format := fmt32 .Little }
      = .ok ([72, 105],
             { data := intToBytes .Little .Bit32 (([72, 105].length : Nat) : Int)
                         ++ [72, 105] ++ [],
               offset := 4 + [72, 105].length, format := fmt32 .Little })) ∧
    ((ByteWriter.string { data := [], format := fmt64 .Little } [72, 105]).data
      = [] ++ intToBytes .Little .Bit64 (([72, 105].length : Nat) : Int) ++ [72, 105]) := by
  exact string_reserialize_width_upgrade .Little [72, 105] [] []
    (by norm_num) (by intro b hb; fin_cases hb <;> norm_num)

/-- Supported Lua versions, from src/format/version.rs. -/
inductive LuaVersion where
  | Lua50
  | Lua51
  deriving DecidableEq

/-- LuaVersion::try_from(u8): 0x51 and 0x50 are the only accepted version
bytes. -/
def LuaVersion.try_from (value : Nat) : Except LunifyError LuaVersion :=
  match value with
  | 0x51 => .ok .Lua51
  | 0x50 => .ok .Lua50
  | version => .error (.UnsupportedVersion version)

/-- IEEE-754 binary64 decoding of a 64-bit word into its exact rational
value; none models the non-finite values (infinities and NaNs). -/
def f64FromBits (bits : Nat) : Option ℚ :=
  let sign : Nat := bits >>> 63
  let expBits : Nat := (bits >>> 52) &&& 2047
  let mantissa : Nat := bits &&& (2 ^ 52 - 1)
  if expBits = 2047 then none
  else
    let magnitude : ℚ :=
      if expBits = 0 then (mantissa : ℚ) * (2 : ℚ) ^ (-(1074 : Int))
      else ((2 ^ 52 + mantissa : Nat) : ℚ) * (2 : ℚ) ^ ((expBits : Int) - 1075)
    some (if sign = 1 then -magnitude else magnitude)

/-- IEEE-754 binary32 decoding (the f32 read path, whose widening cast to
f64 is exact). -/
def f32FromBits (bits : Nat) : Option ℚ :=
  let sign : Nat := bits >>> 31
  let expBits : Nat := (bits >>> 23) &&& 255
  let mantissa : Nat := bits &&& (2 ^ 23 - 1)
  if expBits = 255 then none
  else
    let magnitude : ℚ :=
      if expBits = 0 then (mantissa : ℚ) * (2 : ℚ) ^ (-(149 : Int))
      else ((2 ^ 23 + mantissa : Nat) : ℚ) * (2 : ℚ) ^ ((expBits : Int) - 150)
    some (if sign = 1 then -magnitude else magnitude)

/-- Floating-point number decoding of the from_slice! macro used by
Format::from_byte_stream: width bytes in the given endianness, decoded as
f32 (widened) or f64. -/
def numberFromBytes (e : Endianness) (width : BitWidth) (bytes : List Nat) : Option ℚ :=
  match width with
  | .Bit32 => f32FromBits (natFromBytes e bytes)
  | .Bit64 => f64FromBits (natFromBytes e bytes)

/-- Bits of the f64 literal 31415926.535897933 that Lua 5.0 headers carry to
signal a floating-point number type; these are the bytes B6 09 93 68 E7 F5
7D 41 (little endian) that the repository's own format test uses. -/
def luaNumberFormatBits : Nat := 0x417DF5E7689309B6

/-- The Rust comparison value != 31415926.535897933 on the decoded number:
a NaN (none) compares not-equal, so it yields true. -/
def rustF64NeMagic (value : Option ℚ) : Bool :=
  match value, f64FromBits luaNumberFormatBits with
  | some a, some b => decide (a ≠ b)
  | _, _ => true

/-- Format::from_byte_stream, from src/format/mod.rs: read the compiler
format byte (Lua 5.1 only), endianness, the four width bytes (each
validated), the Lua 5.0 instruction-format quadruple (must be exactly
[6, 8, 9, 9]), and the number-integrality flag (a byte for Lua 5.1, the
magic-number comparison for Lua 5.0). -/
def Format.from_byte_stream (byte_stream : ByteStream) (version : LuaVersion) :
    Except LunifyError (Format × ByteStream) := do
  let (format, bs) ← match version with
    | LuaVersion.Lua51 => byte_stream.byte
    | LuaVersion.Lua50 => pure (0, byte_stream)
  let (endianness_byte, bs) ← bs.byte
  let endianness ← Endianness.try_from endianness_byte
  let (integer_byte, bs) ← bs.byte
  let integer_width ← (BitWidth.try_from integer_byte).mapError LunifyError.UnsupportedIntegerWidth
  let (size_t_byte, bs) ← bs.byte
  let size_t_width ← (BitWidth.try_from size_t_byte).mapError LunifyError.UnsupportedSizeTWidth
  let (instruction_byte, bs) ← bs.byte
  let instruction_width ←
    (BitWidth.try_from instruction_byte).mapError LunifyError.UnsupportedInstructionWidth
  let bs ← match version with
    | LuaVersion.Lua50 => do
      let (instruction_format, bs2) ← bs.slice 4
      if instruction_format ≠ [6, 8, 9, 9] then
        throw (.UnsupportedInstructionFormat instruction_format)
      else
        pure bs2
    | LuaVersion.Lua51 => pure bs
  let (number_byte, bs) ← bs.byte
  let number_width ← (BitWidth.try_from number_byte).mapError LunifyError.UnsupportedNumberWidth
  let (is_number_integral, bs) ← match version with
    | LuaVersion.Lua51 => do
      let (b, bs2) ← bs.byte
      pure (b == 1, bs2)
    | LuaVersion.Lua50 => do
      let (bytes, bs2) ← bs.slice number_width.toByte
      pure (rustF64NeMagic (numberFromBytes endianness number_width bytes), bs2)
  pure ({ format := format, endianness := endianness, integer_width := integer_width,
          size_t_width := size_t_width, instruction_width := instruction_width,
          number_width := number_width, is_number_integral := is_number_integral }, bs)

/-- Modelled from the spec: ByteStream::remove_signature is called by unify
in src/lib.rs but its definition is not present under src/. Per the spec
(binary codec, remove_signature(prefix)): consume exactly the given prefix
and report success, or leave the stream untouched and fail. -/
def ByteStream.remove_signature (self : ByteStream) (signature : List Nat) :
    Bool × ByteStream :=
  if (self.data.drop self.offset).take signature.length = signature then
    (true, { self with offset := self.offset + signature.length })
  else (false, self)

/-- Header phase of unify, from src/lib.rs: try the Lua 5.0 signature and —
only if that fails — the Lua 5.1 signature, read and validate the version
byte, and parse the input Format. -/
def parseHeader (input_bytes : List Nat) (settings : Settings) :
    Except LunifyError (LuaVersion × Format × ByteStream) :=
  let byte_stream := ByteStream.new input_bytes
  match (match byte_stream.remove_signature settings.lua50.binary_signature with
         | (true, bs) => (true, bs)
         | (false, bs) => bs.remove_signature settings.lua51.binary_signature) with
  | (false, _) => .error .IncorrectSignature
  | (true, byte_stream) => do
    let (version_byte, byte_stream) ← byte_stream.byte
    let version ← LuaVersion.try_from version_byte
    let (input_format, byte_stream) ← Format.from_byte_stream byte_stream version
    pure (version, input_format, byte_stream)

/-- unify, from src/lib.rs: after the header phase, an input whose parsed
format equals the requested output format is returned unchanged (the
cfg!(test) escape hatch is compiled out for library users). The rest of the
pipeline — prototype decoding, rewriting and serialization — is abstracted
as the continuation k, which this file does not model; the early-return
path settled here never reaches it. -/
def unify
    (k : LuaVersion → Format → Format → Settings → ByteStream → Except LunifyError (List Nat))
    (input_bytes : List Nat) (output_format : Format) (settings : Settings) :
    Except LunifyError (List Nat) :=
  match parseHeader input_bytes settings with
  | .error e => .error e
  | .ok (version, input_format, byte_stream) =>
    if input_format = output_format then .ok input_bytes
    else k version input_format output_format settings byte_stream

/-- C4: if the Format parsed from the input header equals the
caller-specified output Format, unify returns the input bytes unchanged,
independently of what the rest of the pipeline would do; in particular a
Lua 5.1 input whose format equals the output format (with identical
fields_per_flush settings or not — they are never consulted on this path)
is reproduced byte for byte. -/
theorem unify_matching_format_identity
    (k : LuaVersion → Format → Format → Settings → ByteStream → Except LunifyError (List Nat))
    (input_bytes : List Nat) (settings : Settings)
    (version : LuaVersion) (input_format : Format) (byte_stream : ByteStream)
    (h : parseHeader input_bytes settings = .ok (version, input_format, byte_stream)) :
    unify k input_bytes input_format settings = .ok input_bytes := by
  unfold unify
  simp only [h]
  simp

/-- Witness for C4 on a concrete 12-byte Lua 5.1 header with matching
output format. -/
theorem unify_matching_format_identity_witness :
    unify (fun _ _ _ _ _ => .error .IncorrectSignature)
      [27, 76, 117, 97, 81, 0, 1, 4, 4, 4, 8, 0]
      { format := 0, endianness := .Little, integer_width := .Bit32, size_t_width := .Bit32,
        instruction_width := .Bit32, number_width := .Bit64, is_number_integral := false }
      Settings.default
      = .ok [27, 76, 117, 97, 81, 0, 1, 4, 4, 4, 8, 0] := by
  exact unify_matching_format_identity _ _ _ .Lua51
    { format := 0, endianness := .Little, integer_width := .Bit32, size_t_width := .Bit32,
      instruction_width := .Bit32, number_width := .Bit64, is_number_integral := false }
    { data := [27, 76, 117, 97, 81, 0, 1, 4, 4, 4, 8, 0], offset := 12,
      format := Format.default }
    (by rfl)

/-- Lua 5.0 instruction set, from src/function/instruction/lua50.rs
(lua_instructions! list), with operand modes flattened to their packed
values: BC modes become the two fields b and c (Unused reads as 0), Bx
becomes bx and SignedBx becomes sbx. -/
inductive Lua50Instruction where
  | Move (a b c : Nat)
  | LoadK (a bx : Nat)
  | LoadBool (a b c : Nat)
  | LoadNil (a b c : Nat)
  | GetUpValue (a b c : Nat)
  | GetGlobal (a bx : Nat)
  | GetTable (a b c : Nat)
  | SetGlobal (a bx : Nat)
  | SetUpValue (a b c : Nat)
  | SetTable (a b c : Nat)
  | NewTable (a b c : Nat)
  | _Self (a b c : Nat)
  | Add (a b c : Nat)
  | Subtract (a b c : Nat)
  | Multiply (a b c : Nat)
  | Divide (a b c : Nat)
  | Power (a b c : Nat)
  | Unary (a b c : Nat)
  | Not (a b c : Nat)
  | Concatinate (a b c : Nat)
  | Jump (a : Nat) (sbx : Int)
  | Equals (a b c : Nat)
  | LessThan (a b c : Nat)
  | LessEquals (a b c : Nat)
  | Test (a b c : Nat)
  | Call (a b c : Nat)
  | TailCall (a b c : Nat)
  | Return (a b c : Nat)
  | ForLoop (a : Nat) (sbx : Int)
  | TForLoop (a b c : Nat)
  | TForPrep (a : Nat) (sbx : Int)
  | SetList (a bx : Nat)
  | SetListO (a bx : Nat)
  | Close (a b c : Nat)
  | Closure (a bx : Nat)
  deriving DecidableEq

/-- Register offsetting closure offset_a of move_stack_accesses, from
src/function/instruction/lua51.rs: positions at or above stack_start are
shifted by offset, through the wrapping i64 addition and as-u64 cast. -/
def offsetPosition (stack_start : Nat) (offset : Int) (value : Nat) : Nat :=
  if stack_start ≤ value then (((value : Int) + offset) % (u64Size : Int)).toNat
  else value

/-- Closure offset_constant of move_stack_accesses, from
src/function/instruction/lua51.rs: operands carrying the constant bit are
left alone; plain register operands at or above stack_start are shifted and
must stay within the maximum constant index. -/
def offsetConstant (settings : Lua51Settings) (stack_start : Nat) (offset : Int)
    (value : Nat) : Except LunifyError Nat :=
  if value &&& settings.get_constant_bit ≠ 0 then .ok value
  else if stack_start ≤ value then
    if settings.get_maximum_constant_index <
        (((value : Int) + offset) % (u64Size : Int)).toNat then
      .error .ValueTooTooBigForOperant
    else .ok ((((value : Int) + offset) % (u64Size : Int)).toNat)
  else .ok value

/-- Instruction::move_stack_accesses, from src/function/instruction/lua51.rs
lines 143-247: apply offset_a to the A operand and offset_constant to the
register-like B/C operands, per instruction shape. The SETLIST repaging
loops in upcast.rs and convert.rs reach this through the instruction
interface; the settings argument carries the output Lua 5.1 settings that
define the constant bit. -/
def Instruction.move_stack_accesses (instruction : Instruction) (stack_start : Nat)
    (offset : Int) (settings : Lua51Settings) : Except LunifyError Instruction :=
  let offA := offsetPosition stack_start offset
  let offC := offsetConstant settings stack_start offset
  match instruction with
  | .Move a b c => do
    let b2 ← offC b
    pure (.Move (offA a) b2 c)
  | .LoadK a bx => pure (.LoadK (offA a) bx)
  | .LoadBool a b c => pure (.LoadBool (offA a) b c)
  | .LoadNil a b c => do
    let b2 ← offC b
    pure (.LoadNil (offA a) b2 c)
  | .GetUpValue a b c => pure (.GetUpValue (offA a) b c)
  | .GetGlobal a bx => pure (.GetGlobal (offA a) bx)
  | .GetTable a b c => do
    let b2 ← offC b
    let c2 ← offC c
    pure (.GetTable (offA a) b2 c2)
  | .SetGlobal a bx => pure (.SetGlobal (offA a) bx)
  | .SetUpValue a b c => pure (.SetUpValue (offA a) b c)
  | .SetTable a b c => do
    let b2 ← offC b
    let c2 ← offC c
    pure (.SetTable (offA a) b2 c2)
  | .NewTable a b c => pure (.NewTable (offA a) b c)
  | ._Self a b c => do
    let b2 ← offC b
    let c2 ← offC c
    pure (._Self (offA a) b2 c2)
  | .Add a b c => do
    let b2 ← offC b
    let c2 ← offC c
    pure (.Add (offA a) b2 c2)
  | .Subtract a b c => do
    let b2 ← offC b
    let c2 ← offC c
    pure (.Subtract (offA a) b2 c2)
  | .Multiply a b c => do
    let b2 ← offC b
    let c2 ← offC c
    pure (.Multiply (offA a) b2 c2)
  | .Divide a b c => do
    let b2 ← offC b
    let c2 ← offC c
    pure (.Divide (offA a) b2 c2)
  | .Modulo a b c => do
    let b2 ← offC b
    let c2 ← offC c
    pure (.Modulo (offA a) b2 c2)
  | .Power a b c => do
    let b2 ← offC b
    let c2 ← offC c
    pure (.Power (offA a) b2 c2)
  | .Unary a b c => do
    let b2 ← offC b
    pure (.Unary (offA a) b2 c)
  | .Not a b c => do
    let b2 ← offC b
    pure (.Not (offA a) b2 c)
  | .Length a b c => do
    let b2 ← offC b
    pure (.Length (offA a) b2 c)
  | .Concatinate a b c => do
    let b2 ← offC b
    let c2 ← offC c
    pure (.Concatinate (offA a) b2 c2)
  | .Jump a sbx => pure (.Jump a sbx)
  | .Equals a b c => do
    let b2 ← offC b
    let c2 ← offC c
    pure (.Equals a b2 c2)
  | .LessThan a b c => do
    let b2 ← offC b
    let c2 ← offC c
    pure (.LessThan a b2 c2)
  | .LessEquals a b c => do
    let b2 ← offC b
    let c2 ← offC c
    pure (.LessEquals a b2 c2)
  | .Test a b c => pure (.Test (offA a) b c)
  | .TestSet a b c => do
    let b2 ← offC b
    pure (.TestSet (offA a) b2 c)
  | .Call a b c => pure (.Call (offA a) b c)
  | .TailCall a b c => pure (.TailCall (offA a) b c)
  | .Return a b c => pure (.Return (offA a) b c)
  | .ForLoop a sbx => pure (.ForLoop (offA a) sbx)
  | .ForPrep a sbx => pure (.ForPrep (offA a) sbx)
  | .TForLoop a b c => pure (.TForLoop (offA a) b c)
  | .SetList a b c => pure (.SetList (offA a) b c)
  | .Close a b c => pure (.Close (offA a) b c)
  | .Closure a bx => pure (.Closure (offA a) bx)
  | .VarArg a b c => pure (.VarArg (offA a) b c)

/-- Inner while loop of the SETLIST repaging path, from
src/function/upcast.rs lines 281-302 (the identical loop appears in
src/function/convert.rs): walk forward from the removed SETLIST, inserting
a full-page SETLIST whenever the running offset lines up with a plus the
output fields_per_flush, and shifting the stack accesses of every other
instruction by the running offset. The fuel argument dominates the
iteration count: every instruction is visited at most twice (once through
the insert branch, whose offset decrement stops it from matching again,
and once through the move branch). -/
def repageGo (settings : Settings) (a : Nat) :
    Nat → InstructionBuilder → Nat → Int → Nat →
    Option (Except LunifyError InstructionBuilder)
  | 0, _, _, _, _ => none
  | fuel + 1, builder, instruction_index, offset, page =>
    if instruction_index < builder.get_program_counter then
      match builder.get_instruction instruction_index with
      | none => none
      | some instruction =>
        if (match instruction.stack_destination with
            | some stack_destination =>
              decide (offset + (stack_destination.1 : Int) - 1 =
                ((wadd a settings.output.fields_per_flush : Nat) : Int))
            | none => false) then
          match builder.insert_extra_instruction instruction_index
              (.SetList a settings.output.fields_per_flush page) with
          | none => none
          | some builder2 =>
            repageGo settings a fuel builder2 (instruction_index + 1)
              (offset - (settings.output.fields_per_flush : Int)) (wadd page 1)
        else
          match instruction.move_stack_accesses a offset settings.output with
          | .error e => some (.error e)
          | .ok instruction2 =>
            match builder.modify_instruction instruction_index (fun _ => instruction2) with
            | none => none
            | some builder2 => repageGo settings a fuel builder2 (instruction_index + 1) offset page
    else some (.ok builder)

/-- SetList/SetListO arm of upcast, from src/function/upcast.rs lines
237-314: compute the page and offset of the flat index (a zero
fields_per_flush is a Rust division panic, modelled as none), emit a single
SETLIST in the good case, and otherwise run the backward setup search, drop
the previous SETLIST found there, repage the setup code and append the
replacement SETLIST. -/
def setListArm (settings : Settings) (builder : InstructionBuilder) (a bx : Nat)
    (is_setlisto : Bool) : Option (Except LunifyError InstructionBuilder) :=
  if settings.output.fields_per_flush = 0 then none
  else
    let flat_index := wadd bx 1
    let page := flat_index / settings.output.fields_per_flush
    let offset := flat_index % settings.output.fields_per_flush
    let b := if is_setlisto then 0 else offset
    if page = 0 ∧
        flat_index ≤ Nat.min settings.lua50.fields_per_flush settings.output.fields_per_flush then
      some (.ok (builder.instruction (.SetList a b 1)))
    else
      match setListSetupIndex builder.contexts a with
      | none => some (.ok (builder.instruction (.SetList a b (wadd page 1))))
      | some instruction_index =>
        match builder.get_instruction instruction_index with
        | none => none
        | some found =>
          match found with
          | .SetList _ b0 c0 =>
            match builder.remove_instruction instruction_index with
            | none => none
            | some builder2 =>
              match repageGo settings a (2 * builder2.get_program_counter + 2) builder2
                  instruction_index (b0 : Int) c0 with
              | none => none
              | some (.error e) => some (.error e)
              | some (.ok builder3) =>
                some (.ok (builder3.instruction (.SetList a b (wadd page 1))))
          | _ => some (.ok (builder.instruction (.SetList a b (wadd page 1))))

/-- Per-instruction dispatch of upcast, from src/function/upcast.rs lines
21-317: most opcodes are copied through unchanged, Test becomes TestSet,
and the ForLoop/TForLoop/TForPrep/SetList arms synthesise the Lua 5.1
replacement sequences. Constant allocation goes through the fallible
ConstantManager of src/function/constant.rs, whose errors are threaded
outward; a trailing panic of the builder (out-of-bounds insert or remove)
is none. -/
def upcastStep (settings : Settings) (builder : InstructionBuilder)
    (constants : List Constant) :
    Lua50Instruction → Option (Except LunifyError (InstructionBuilder × List Constant))
  | .Move a b c => some (.ok (builder.instruction (.Move a b c), constants))
  | .LoadK a bx => some (.ok (builder.instruction (.LoadK a bx), constants))
  | .LoadBool a b c => some (.ok (builder.instruction (.LoadBool a b c), constants))
  | .LoadNil a b c => some (.ok (builder.instruction (.LoadNil a b c), constants))
  | .GetUpValue a b c => some (.ok (builder.instruction (.GetUpValue a b c), constants))
  | .GetGlobal a bx => some (.ok (builder.instruction (.GetGlobal a bx), constants))
  | .GetTable a b c => some (.ok (builder.instruction (.GetTable a b c), constants))
  | .SetGlobal a bx => some (.ok (builder.instruction (.SetGlobal a bx), constants))
  | .SetUpValue a b c => some (.ok (builder.instruction (.SetUpValue a b c), constants))
  | .SetTable a b c => some (.ok (builder.instruction (.SetTable a b c), constants))
  | .NewTable a b c => some (.ok (builder.instruction (.NewTable a b c), constants))
  | ._Self a b c => some (.ok (builder.instruction (._Self a b c), constants))
  | .Add a b c => some (.ok (builder.instruction (.Add a b c), constants))
  | .Subtract a b c => some (.ok (builder.instruction (.Subtract a b c), constants))
  | .Multiply a b c => some (.ok (builder.instruction (.Multiply a b c), constants))
  | .Divide a b c => some (.ok (builder.instruction (.Divide a b c), constants))
  | .Power a b c => some (.ok (builder.instruction (.Power a b c), constants))
  | .Unary a b c => some (.ok (builder.instruction (.Unary a b c), constants))
  | .Not a b c => some (.ok (builder.instruction (.Not a b c), constants))
  | .Concatinate a b c => some (.ok (builder.instruction (.Concatinate a b c), constants))
  | .Jump a sbx => some (.ok (builder.instruction (.Jump a sbx), constants))
  | .Equals a b c => some (.ok (builder.instruction (.Equals a b c), constants))
  | .LessThan a b c => some (.ok (builder.instruction (.LessThan a b c), constants))
  | .LessEquals a b c => some (.ok (builder.instruction (.LessEquals a b c), constants))
  | .Test a b c => some (.ok (builder.instruction (.TestSet a b c), constants))
  | .Call a b c => some (.ok (builder.instruction (.Call a b c), constants))
  | .TailCall a b c => some (.ok (builder.instruction (.TailCall a b c), constants))
  | .Return a b c => some (.ok (builder.instruction (.Return a b c), constants))
  | .ForLoop a sbx =>
    match create_unique settings constants builder.get_program_counter with
    | .error e => some (.error e)
    | .ok (global_constant, constants) =>
      let builder := builder.instruction (.SetGlobal (wadd a 3) global_constant)
      let builder := builder.extra_instruction (.ForLoop a sbx)
      match builder.last_instruction_offset (-1) with
      | none => none
      | some builder =>
        match builder.adjusted_jump_destination sbx with
        | none => none
        | some (.error e) => some (.error e)
        | some (.ok position) =>
          match builder.insert_extra_instruction position
              (.GetGlobal (wadd a 3) global_constant) with
          | none => none
          | some builder => some (.ok (builder, constants))
  | .TForLoop a _ c =>
    if c = 0 then
      some (.ok (builder.instruction (.TForLoop a 0 (wadd c 1)), constants))
    else
      let variable_count := wadd c 1
      let call_base := wadd (wadd a variable_count) 2
      match constant_nil settings constants with
      | .error e => some (.error e)
      | .ok (constant_nil_index, constants) =>
        let builder := builder.instruction (.Move call_base a 0)
        let builder := builder.extra_instruction (.Move (wadd call_base 1) (wadd a 1) 0)
        let builder := builder.extra_instruction (.Move (wadd call_base 2) (wadd a 2) 0)
        let builder := builder.extra_instruction (.Call call_base 3 (wadd variable_count 1))
        let builder := ((List.range variable_count).reverse).foldl
          (fun builder offset =>
            builder.extra_instruction (.Move (wadd (wadd a offset) 2) (wadd call_base offset) 0))
          builder
        let builder := builder.extra_instruction (.LoadK call_base constant_nil_index)
        let builder := builder.extra_instruction (.Equals 0 (wadd a 2) call_base)
        some (.ok (builder, constants))
  | .TForPrep a sbx =>
    match create_unique settings constants builder.get_program_counter with
    | .error e => some (.error e)
    | .ok (ra1_constant, constants) =>
    match create_unique settings constants (builder.get_program_counter + 1) with
    | .error e => some (.error e)
    | .ok (ra2_constant, constants) =>
    match constant_for_str settings constants "type" with
    | .error e => some (.error e)
    | .ok (type_global_constant, constants) =>
    match constant_for_str settings constants "table" with
    | .error e => some (.error e)
    | .ok (table_global_constant, constants) =>
    match constant_for_str settings constants "next" with
    | .error e => some (.error e)
    | .ok (next_global_constant, constants) =>
      let builder := builder.instruction (.SetGlobal (wadd a 1) ra1_constant)
      let builder := builder.extra_instruction (.SetGlobal (wadd a 2) ra2_constant)
      let builder := builder.extra_instruction (.GetGlobal (wadd a 1) type_global_constant)
      let builder := builder.extra_instruction (.Move (wadd a 2) a 0)
      let builder := builder.extra_instruction (.Call (wadd a 1) 2 2)
      let builder := builder.extra_instruction (.LoadK (wadd a 2) table_global_constant)
      let builder := builder.extra_instruction (.Equals 0 (wadd a 1) (wadd a 2))
      let builder := builder.extra_instruction (.Jump a 2)
      match builder.last_instruction_fixed with
      | none => none
      | some builder =>
        let builder := builder.extra_instruction (.SetGlobal a ra1_constant)
        let builder := builder.extra_instruction (.GetGlobal a next_global_constant)
        let builder := builder.extra_instruction (.GetGlobal (wadd a 1) ra1_constant)
        let builder := builder.extra_instruction (.GetGlobal (wadd a 2) ra2_constant)
        let builder := builder.extra_instruction (.Jump a sbx)
        some (.ok (builder, constants))
  | .SetList a bx =>
    match setListArm settings builder a bx false with
    | none => none
    | some (.error e) => some (.error e)
    | some (.ok builder) => some (.ok (builder, constants))
  | .SetListO a bx =>
    match setListArm settings builder a bx true with
    | none => none
    | some (.error e) => some (.error e)
    | some (.ok builder) => some (.ok (builder, constants))
  | .Close a b c => some (.ok (builder.instruction (.Close a b c), constants))
  | .Closure a bx => some (.ok (builder.instruction (.Closure a bx), constants))

/-- Driving loop of upcast over the zipped instruction and line-number
lists, from src/function/upcast.rs line 18: set the line number, then
dispatch. -/
def upcastGo (settings : Settings) :
    List (Lua50Instruction × Int) → InstructionBuilder → List Constant →
    Option (Except LunifyError (InstructionBuilder × List Constant))
  | [], builder, constants => some (.ok (builder, constants))
  | (instruction, line_number) :: rest, builder, constants =>
    match upcastStep settings (builder.set_line_number line_number) constants instruction with
    | none => none
    | some (.error e) => some (.error e)
    | some (.ok (builder, constants)) => upcastGo settings rest builder constants

/-- Variadic prologue of upcast, from src/function/upcast.rs lines 329-355:
the four inserted instructions that build the Lua 5.0 style arg table at
the top of a variadic function. -/
def variadicPrologue (builder : InstructionBuilder) (parameter_count : Nat) :
    Option InstructionBuilder :=
  let arg_stack_position := parameter_count
  match builder.insert_extra_instruction 0 (.NewTable (wadd arg_stack_position 1) 0 0) with
  | none => none
  | some builder =>
  match builder.insert_extra_instruction 1 (.VarArg (wadd arg_stack_position 2) 0 0) with
  | none => none
  | some builder =>
  match builder.insert_extra_instruction 2 (.SetList (wadd arg_stack_position 1) 0 1) with
  | none => none
  | some builder =>
  match builder.insert_extra_instruction 3
      (.Move arg_stack_position (wadd arg_stack_position 1) 0) with
  | none => none
  | some builder => some builder

/-- upcast, from src/function/upcast.rs: rewrite every Lua 5.0 instruction
through the builder, add the variadic prologue when requested, and
finalize. The result carries the new instructions, the new line_info, the
grown constant pool and the updated maximum stack size (the two &mut
outputs of the Rust signature). -/
def upcast (instructions : List Lua50Instruction) (line_info : List Int)
    (constants : List Constant) (maximum_stack_size : Nat) (parameter_count : Nat)
    (is_variadic : Bool) (settings : Settings) :
    Option (Except LunifyError (List Instruction × List Int × List Constant × Nat)) :=
  match upcastGo settings (instructions.zip line_info) InstructionBuilder.default constants with
  | none => none
  | some (.error e) => some (.error e)
  | some (.ok (builder, constants)) =>
    match (if is_variadic then variadicPrologue builder parameter_count else some builder) with
    | none => none
    | some builder =>
      match builder.finalize maximum_stack_size settings with
      | none => none
      | some (.error e) => some (.error e)
      | some (.ok (new_instructions, new_line_info, new_maximum_stack_size)) =>
        some (.ok (new_instructions, new_line_info, constants, new_maximum_stack_size))

/-- C1: upcasting a Lua 5.0 function whose only instruction is FORLOOP with
a = 0 and sBx = -1 (non-variadic, empty constant pool, default settings)
produces exactly [GETGLOBAL 3 Bx=0, SETGLOBAL 3 Bx=0, FORLOOP 0 sBx=-3]:
the freshly minted unique constant takes index 0 (the pool length before
the rewrite), the restore GETGLOBAL is inserted at the retargeted jump
destination 0 computed by adjusted_jump_destination, and the FORLOOP sBx is
remapped by the line-weight walk (-1 to -2) plus its final_offset of -1. -/
theorem upcast_for_loop_rewrite :
    upcast [Lua50Instruction.ForLoop 0 (-1)] [7] [] 2 0 false Settings.default =
      some (.ok ([.GetGlobal 3 0, .SetGlobal 3 0, .ForLoop 0 (-3)], [7, 7, 7],
        [Constant.String "__%lunify%__temp0_0\x00"], 4)) := by
  rfl

end Lunify
